import Mathlib

/-!
# Verification of multi-cam-sprite-renderer

A shallow embedding, in Lean 4, of the host-independent algorithms of the
`multi-cam-sprite-renderer` addon (camera-ring placement, sprite-sheet
compositing, render-dimension validation, image similarity, duplicate-frame
run-length tracking, and render-state cleanup), together with theorems that
settle the specification claims about them.

Conventions of the embedding:
* Python machine floats are modelled as exact numbers (`ℚ` for pixel
  arithmetic, `ℝ` for trigonometry); Python `int` arithmetic as `ℕ`/`ℤ`.
* `math.ceil(math.sqrt n)` on a natural number is modelled by the exact
  ceiling of the real square root (`pyCeilSqrt`), and `math.ceil (a / b)`
  for naturals by exact ceiling division (`pyCeilDiv`).
* Loaded image files are modelled by `PyImage` (width, height and a flat
  RGBA pixel buffer, row 0 at the bottom as in the host's image API); the
  filesystem is a function `String → Option PyImage` (`none` models a
  missing file).
* Python list mutation (`pixels[i] = v`, slice assignment of 4 floats,
  `lst[-1] += 1`, `lst.append x`) is modelled by pure list operations.
-/

namespace Mcsr

/-! ## constants.py -/

/-- `MAX_TEXTURE_SIZE = 16384` from `constants.py` (GPU texture limit). -/
def MAX_TEXTURE_SIZE : ℕ := 16384

/-! ## Python arithmetic helpers -/

/-- Embeds `math.ceil(math.sqrt n)` for a natural `n`: the least `c` with
`n ≤ c * c`, i.e. the exact ceiling of the real square root. -/
def pyCeilSqrt (n : ℕ) : ℕ :=
  if Nat.sqrt n * Nat.sqrt n = n then Nat.sqrt n else Nat.sqrt n + 1

/-- Embeds `math.ceil (a / b)` for naturals (exact ceiling division). -/
def pyCeilDiv (a b : ℕ) : ℕ := (a + b - 1) / b

/-! ## render_utils.validate_render_dimensions -/

/-- A Blender action, reduced to what `validate_render_dimensions` reads:
its `frame_range` pair.  `none` embeds a `None` entry (current frame). -/
def PyAction := Option (ℤ × ℤ)

/-- The contribution of one entry of `actions_to_render` to the frame count:
`action.frame_range[1] - action.frame_range[0] + 1`, or `1` for `None`. -/
def actionFrameCount (action : PyAction) : ℤ :=
  match action with
  | some fr => fr.2 - fr.1 + 1
  | none => 1

/-- The result dictionary of `validate_render_dimensions`. -/
structure RenderParams where
  actual_render_x : ℕ
  actual_render_y : ℕ
  total_frames : ℤ
  grid_cols : ℕ
  grid_rows : ℕ
  error_message : String
  deriving Repr, DecidableEq

/-- Embeds `render_utils.validate_render_dimensions`: computes actual render
dimensions (`int(x * percentage / 100)`), the maximum frame count over the
actions (seeded with 0), the square-ish grid layout, and validates the final
sheet dimensions against `MAX_TEXTURE_SIZE`. -/
def validate_render_dimensions (scene_render_x scene_render_y : ℕ)
    (resolution_percentage : ℕ) (actions_to_render : List PyAction) :
    Bool × RenderParams :=
  let actual_render_x := scene_render_x * resolution_percentage / 100
  let actual_render_y := scene_render_y * resolution_percentage / 100
  let total_frames : ℤ :=
    actions_to_render.foldl (fun acc action => max acc (actionFrameCount action)) 0
  let grid_cols := pyCeilSqrt total_frames.toNat
  let grid_rows := pyCeilDiv total_frames.toNat grid_cols
  let final_width := actual_render_x * grid_cols
  let final_height := actual_render_y * grid_rows
  let is_valid : Bool :=
    decide (final_width ≤ MAX_TEXTURE_SIZE ∧ final_height ≤ MAX_TEXTURE_SIZE)
  let error_msg : String :=
    if is_valid then ""
    else
      "Animation too large: " ++
      (s!"{final_width}x{final_height} exceeds {MAX_TEXTURE_SIZE} limit. " ++
       s!"Current: {actual_render_x}x{actual_render_y} per frame " ++
       s!"({resolution_percentage}%), " ++
       s!"{total_frames} frames in {grid_cols}x{grid_rows} grid. " ++
       "Reduce render resolution, resolution percentage, or frame count.")
  (is_valid,
   { actual_render_x := actual_render_x
     actual_render_y := actual_render_y
     total_frames := total_frames
     grid_cols := grid_cols
     grid_rows := grid_rows
     error_message := error_msg })

/-! ### Auxiliary lemmas about folded maxima -/

lemma foldl_max_init_le (l : List ℤ) (a : ℤ) : a ≤ l.foldl max a := by
  induction l generalizing a with
  | nil => simp
  | cons x xs ih => exact le_trans (le_max_left a x) (ih (max a x))

lemma le_foldl_max (l : List ℤ) (a : ℤ) {x : ℤ} (hx : x ∈ l) :
    x ≤ l.foldl max a := by
  induction l generalizing a with
  | nil => cases hx
  | cons y ys ih =>
    rcases List.mem_cons.mp hx with h | h
    · subst h
      exact le_trans (le_max_right a x) (foldl_max_init_le ys (max a x))
    · exact ih (max a y) h

lemma foldl_max_eq_init_or_mem (l : List ℤ) (a : ℤ) :
    l.foldl max a = a ∨ l.foldl max a ∈ l := by
  induction l generalizing a with
  | nil => simp
  | cons y ys ih =>
    rcases ih (max a y) with h | h
    · rcases max_cases a y with ⟨hm, _⟩ | ⟨hm, _⟩
      · left; simpa [List.foldl_cons, hm] using h
      · right; simp only [List.foldl_cons]
        rw [h, hm]; exact List.mem_cons_self y ys
    · right; exact List.mem_cons_of_mem y h

/-! ### Auxiliary lemmas about `pyCeilSqrt` and `pyCeilDiv` -/

lemma pyCeilSqrt_pos {n : ℕ} (hn : 1 ≤ n) : 1 ≤ pyCeilSqrt n := by
  unfold pyCeilSqrt
  split
  · exact Nat.sqrt_pos.mpr hn
  · exact Nat.le_add_left 1 _

lemma le_pyCeilSqrt_sq (n : ℕ) : n ≤ pyCeilSqrt n * pyCeilSqrt n := by
  unfold pyCeilSqrt
  split
  · omega
  · have h := Nat.lt_succ_sqrt n
    rw [Nat.succ_eq_add_one] at h
    omega

lemma pyCeilDiv_pos {a b : ℕ} (ha : 1 ≤ a) (hb : 1 ≤ b) : 1 ≤ pyCeilDiv a b := by
  unfold pyCeilDiv
  rw [Nat.le_div_iff_mul_le hb]
  omega

lemma le_mul_pyCeilDiv (a : ℕ) {b : ℕ} (hb : 1 ≤ b) : a ≤ b * pyCeilDiv a b := by
  unfold pyCeilDiv
  have h1 := Nat.div_add_mod (a + b - 1) b
  have h2 : (a + b - 1) % b < b := Nat.mod_lt _ hb
  omega

/-! ### Component lemmas about `validate_render_dimensions` -/

lemma validate_total_frames_eq (X Y p : ℕ) (actions : List PyAction) :
    (validate_render_dimensions X Y p actions).2.total_frames =
      (actions.map actionFrameCount).foldl max 0 := by
  simp [validate_render_dimensions, List.foldl_map]

lemma validate_actual_x_eq (X Y p : ℕ) (actions : List PyAction) :
    (validate_render_dimensions X Y p actions).2.actual_render_x = X * p / 100 := rfl

lemma validate_actual_y_eq (X Y p : ℕ) (actions : List PyAction) :
    (validate_render_dimensions X Y p actions).2.actual_render_y = Y * p / 100 := rfl

lemma validate_grid_cols_eq (X Y p : ℕ) (actions : List PyAction) :
    (validate_render_dimensions X Y p actions).2.grid_cols =
      pyCeilSqrt (validate_render_dimensions X Y p actions).2.total_frames.toNat := rfl

lemma validate_grid_rows_eq (X Y p : ℕ) (actions : List PyAction) :
    (validate_render_dimensions X Y p actions).2.grid_rows =
      pyCeilDiv (validate_render_dimensions X Y p actions).2.total_frames.toNat
        (validate_render_dimensions X Y p actions).2.grid_cols := rfl

lemma validate_is_valid_iff (X Y p : ℕ) (actions : List PyAction) :
    (validate_render_dimensions X Y p actions).1 = true ↔
      ((validate_render_dimensions X Y p actions).2.actual_render_x *
         (validate_render_dimensions X Y p actions).2.grid_cols ≤ MAX_TEXTURE_SIZE ∧
       (validate_render_dimensions X Y p actions).2.actual_render_y *
         (validate_render_dimensions X Y p actions).2.grid_rows ≤ MAX_TEXTURE_SIZE) := by
  simp [validate_render_dimensions]

lemma error_prefix_ne_empty (s : String) : ("Animation too large: " ++ s) ≠ "" := by
  intro h
  have hl : ("Animation too large: " ++ s).length = 0 := by rw [h]; rfl
  rw [String.length_append] at hl
  have h21 : ("Animation too large: ").length = 21 := rfl
  omega

lemma ite_error_empty_iff (b : Bool) (s : String) :
    ((if b then "" else "Animation too large: " ++ s) = "" ↔ b = true) := by
  cases b <;> simp [error_prefix_ne_empty]

lemma validate_error_empty_iff (X Y p : ℕ) (actions : List PyAction) :
    ((validate_render_dimensions X Y p actions).2.error_message = "" ↔
      (validate_render_dimensions X Y p actions).1 = true) := by
  simp only [validate_render_dimensions]
  exact ite_error_empty_iff _ _

lemma one_le_actionFrameCount {actions : List PyAction}
    (hwf : ∀ fr : ℤ × ℤ, (some fr : PyAction) ∈ actions → fr.1 ≤ fr.2)
    {a : PyAction} (ha : a ∈ actions) : 1 ≤ actionFrameCount a := by
  match a with
  | none => simp [actionFrameCount]
  | some fr =>
    have := hwf fr ha
    simp only [actionFrameCount]
    omega

lemma validate_total_frames_pos (X Y p : ℕ) (actions : List PyAction)
    (hne : actions ≠ [])
    (hwf : ∀ fr : ℤ × ℤ, (some fr : PyAction) ∈ actions → fr.1 ≤ fr.2) :
    1 ≤ (validate_render_dimensions X Y p actions).2.total_frames := by
  rw [validate_total_frames_eq]
  obtain ⟨a, rest, rfl⟩ := List.exists_cons_of_ne_nil hne
  have h1 : 1 ≤ actionFrameCount a :=
    one_le_actionFrameCount hwf (List.mem_cons_self a rest)
  have h2 : actionFrameCount a ∈ (a :: rest).map actionFrameCount := by simp
  exact le_trans h1 (le_foldl_max _ 0 h2)

lemma validate_total_frames_mem (X Y p : ℕ) (actions : List PyAction)
    (hne : actions ≠ [])
    (hwf : ∀ fr : ℤ × ℤ, (some fr : PyAction) ∈ actions → fr.1 ≤ fr.2) :
    (validate_render_dimensions X Y p actions).2.total_frames ∈
      actions.map actionFrameCount := by
  have hpos := validate_total_frames_pos X Y p actions hne hwf
  rw [validate_total_frames_eq] at hpos ⊢
  rcases foldl_max_eq_init_or_mem (actions.map actionFrameCount) 0 with h | h
  · rw [h] at hpos; omega
  · exact h

/-! ## Claim C3 -/

/-- The conclusion of claim C3: `validate_render_dimensions` returns the
actual dimensions `int(x * percentage / 100)`, the maximum frame count over
all actions, the ceil-sqrt grid layout, and flags invalidity (`is_valid =
False` with a non-empty `error_message`) exactly when the composed sheet
exceeds `MAX_TEXTURE_SIZE = 16384` in either dimension. -/
def C3Spec (X Y p : ℕ) (actions : List PyAction) : Prop :=
  (validate_render_dimensions X Y p actions).2.actual_render_x = X * p / 100 ∧
  (validate_render_dimensions X Y p actions).2.actual_render_y = Y * p / 100 ∧
  (validate_render_dimensions X Y p actions).2.total_frames ∈
      actions.map actionFrameCount ∧
  (∀ c ∈ actions.map actionFrameCount,
      c ≤ (validate_render_dimensions X Y p actions).2.total_frames) ∧
  (validate_render_dimensions X Y p actions).2.grid_cols =
      pyCeilSqrt (validate_render_dimensions X Y p actions).2.total_frames.toNat ∧
  (validate_render_dimensions X Y p actions).2.grid_rows =
      pyCeilDiv (validate_render_dimensions X Y p actions).2.total_frames.toNat
        (validate_render_dimensions X Y p actions).2.grid_cols ∧
  (((validate_render_dimensions X Y p actions).1 = false ∧
      (validate_render_dimensions X Y p actions).2.error_message ≠ "") ↔
    (MAX_TEXTURE_SIZE <
        (validate_render_dimensions X Y p actions).2.grid_cols *
          (validate_render_dimensions X Y p actions).2.actual_render_x ∨
     MAX_TEXTURE_SIZE <
        (validate_render_dimensions X Y p actions).2.grid_rows *
          (validate_render_dimensions X Y p actions).2.actual_render_y)) ∧
  (((validate_render_dimensions X Y p actions).1 = true ∧
      (validate_render_dimensions X Y p actions).2.error_message = "") ↔
    ¬(MAX_TEXTURE_SIZE <
        (validate_render_dimensions X Y p actions).2.grid_cols *
          (validate_render_dimensions X Y p actions).2.actual_render_x ∨
      MAX_TEXTURE_SIZE <
        (validate_render_dimensions X Y p actions).2.grid_rows *
          (validate_render_dimensions X Y p actions).2.actual_render_y))

/-- C3: for every base resolution, resolution percentage and non-empty list
of actions (with well-formed frame ranges, as the host guarantees),
`validate_render_dimensions` computes `actual_x = int(X*p/100)`,
`actual_y = int(Y*p/100)`, `total_frames` = the maximum frame span over the
actions (1 for a `None` action), `grid_cols = ceil(sqrt(total_frames))`,
`grid_rows = ceil(total_frames / grid_cols)`, and returns `is_valid = False`
together with a non-empty `error_message` exactly when
`grid_cols * actual_x > 16384` or `grid_rows * actual_y > 16384`
(and `is_valid = True` with an empty message otherwise). -/
theorem C3_validate_render_dimensions (X Y p : ℕ) (actions : List PyAction)
    (hne : actions ≠ [])
    (hwf : ∀ fr : ℤ × ℤ, (some fr : PyAction) ∈ actions → fr.1 ≤ fr.2) :
    C3Spec X Y p actions := by
  have hv := validate_is_valid_iff X Y p actions
  have he := validate_error_empty_iff X Y p actions
  have hmem := validate_total_frames_mem X Y p actions hne hwf
  have hub : ∀ c ∈ actions.map actionFrameCount,
      c ≤ (validate_render_dimensions X Y p actions).2.total_frames := by
    intro c hc
    rw [validate_total_frames_eq]
    exact le_foldl_max _ _ hc
  unfold C3Spec
  set r := validate_render_dimensions X Y p actions with hr
  have hcomm1 : r.2.grid_cols * r.2.actual_render_x =
      r.2.actual_render_x * r.2.grid_cols := Nat.mul_comm _ _
  have hcomm2 : r.2.grid_rows * r.2.actual_render_y =
      r.2.actual_render_y * r.2.grid_rows := Nat.mul_comm _ _
  rw [hcomm1, hcomm2]
  have hnot : (MAX_TEXTURE_SIZE < r.2.actual_render_x * r.2.grid_cols ∨
      MAX_TEXTURE_SIZE < r.2.actual_render_y * r.2.grid_rows) ↔
      ¬(r.2.actual_render_x * r.2.grid_cols ≤ MAX_TEXTURE_SIZE ∧
        r.2.actual_render_y * r.2.grid_rows ≤ MAX_TEXTURE_SIZE) := by
    rw [not_and_or, not_le, not_le]
  rw [hnot, not_not]
  refine ⟨rfl, rfl, hmem, hub, rfl, rfl, ?_, ?_⟩
  · constructor
    · rintro ⟨h1, _⟩ hP
      rw [hv.mpr hP] at h1
      cases h1
    · intro hnP
      have hb : ¬(r.1 = true) := fun h => hnP (hv.mp h)
      refine ⟨by simpa using hb, fun h0 => hb (he.mp h0)⟩
  · constructor
    · rintro ⟨h1, _⟩
      exact hv.mp h1
    · intro hP
      have h1 := hv.mpr hP
      exact ⟨h1, he.mpr h1⟩

/-- Witness for C3 at a concrete input (1920x1080 at 100%, one `None`
action). -/
theorem C3_witness : C3Spec 1920 1080 100 [none] :=
  C3_validate_render_dimensions 1920 1080 100 [none] (by simp)
    (by intro fr h; simp at h)

/-! ## Claim C8 -/

/-- The conclusion of claim C8: the computed grid is well-defined and has
capacity for all frames. -/
def C8Spec (X Y p : ℕ) (actions : List PyAction) : Prop :=
  1 ≤ (validate_render_dimensions X Y p actions).2.total_frames ∧
  1 ≤ (validate_render_dimensions X Y p actions).2.grid_cols ∧
  1 ≤ (validate_render_dimensions X Y p actions).2.grid_rows ∧
  (validate_render_dimensions X Y p actions).2.total_frames ≤
    ((validate_render_dimensions X Y p actions).2.grid_cols *
     (validate_render_dimensions X Y p actions).2.grid_rows : ℕ)

/-- C8: for every call of `validate_render_dimensions` with a non-empty
`actions_to_render` list (entries may be `None`; frame ranges well-formed,
as the host guarantees), `total_frames ≥ 1`, hence `grid_cols ≥ 1` and
`grid_rows ≥ 1` (so the grid-rows division is well-defined), and the grid
has capacity for all frames: `grid_cols * grid_rows ≥ total_frames`. -/
theorem C8_grid_capacity (X Y p : ℕ) (actions : List PyAction)
    (hne : actions ≠ [])
    (hwf : ∀ fr : ℤ × ℤ, (some fr : PyAction) ∈ actions → fr.1 ≤ fr.2) :
    C8Spec X Y p actions := by
  have ht := validate_total_frames_pos X Y p actions hne hwf
  unfold C8Spec
  set r := validate_render_dimensions X Y p actions with hr
  have htn : 1 ≤ r.2.total_frames.toNat := by omega
  have hcols : r.2.grid_cols = pyCeilSqrt r.2.total_frames.toNat := rfl
  have hrows : r.2.grid_rows = pyCeilDiv r.2.total_frames.toNat r.2.grid_cols := rfl
  have h1 : 1 ≤ r.2.grid_cols := hcols ▸ pyCeilSqrt_pos htn
  have h2 : 1 ≤ r.2.grid_rows := by rw [hrows]; exact pyCeilDiv_pos htn h1
  have hcap : r.2.total_frames.toNat ≤ r.2.grid_cols * r.2.grid_rows := by
    rw [hrows]; exact le_mul_pyCeilDiv _ h1
  exact ⟨ht, h1, h2, Int.toNat_le.mp hcap⟩

/-- Witness for C8 at a concrete input (a two-action list containing a
`None` entry and a 24-frame action). -/
theorem C8_witness : C8Spec 1920 1080 100 [none, some (1, 24)] :=
  C8_grid_capacity 1920 1080 100 [none, some (1, 24)] (by simp)
    (by intro fr h; simp at h; rw [h]; omega)

/-! ## Geometry: `mathutils` vectors and Z-rotations -/

/-- A `mathutils.Vector` with three components. -/
@[ext]
structure Vec3 where
  x : ℝ
  y : ℝ
  z : ℝ

instance : Sub Vec3 := ⟨fun a b => ⟨a.x - b.x, a.y - b.y, a.z - b.z⟩⟩

@[simp] lemma Vec3.sub_x (a b : Vec3) : (a - b).x = a.x - b.x := rfl
@[simp] lemma Vec3.sub_y (a b : Vec3) : (a - b).y = a.y - b.y := rfl
@[simp] lemma Vec3.sub_z (a b : Vec3) : (a - b).z = a.z - b.z := rfl

/-- Squared Euclidean norm of a `Vec3`. -/
def Vec3.sqnorm (v : Vec3) : ℝ := v.x ^ 2 + v.y ^ 2 + v.z ^ 2

/-- Euclidean distance between two `Vec3`s (`(a - b).length` in
`mathutils`). -/
noncomputable def Vec3.dist (a b : Vec3) : ℝ := Real.sqrt (Vec3.sqnorm (a - b))

/-- A 3x3 real matrix; models the rotation part of a `mathutils` rotation
(e.g. an `Euler`, identified with its rotation matrix). -/
abbrev Mat3 := Matrix (Fin 3) (Fin 3) ℝ

/-- The action of `mathutils.Matrix.Rotation(a, 4, 'Z')` on a 3-vector:
rotation about the Z axis by angle `a`. -/
noncomputable def rotZvec (a : ℝ) (v : Vec3) : Vec3 :=
  { x := Real.cos a * v.x - Real.sin a * v.y
    y := Real.sin a * v.x + Real.cos a * v.y
    z := v.z }

/-- The 3x3 matrix of `mathutils.Matrix.Rotation(a, 4, 'Z')`. -/
noncomputable def rotZ (a : ℝ) : Mat3 :=
  !![Real.cos a, -Real.sin a, 0; Real.sin a, Real.cos a, 0; 0, 0, 1]

lemma sqnorm_rotZvec (a : ℝ) (v : Vec3) :
    (rotZvec a v).sqnorm = v.sqnorm := by
  unfold rotZvec Vec3.sqnorm
  have h := Real.sin_sq_add_cos_sq a
  simp only
  linear_combination (v.x ^ 2 + v.y ^ 2) * h

lemma sqnorm_sub_comm (a b : Vec3) :
    Vec3.sqnorm (a - b) = Vec3.sqnorm (b - a) := by
  unfold Vec3.sqnorm
  simp only [Vec3.sub_x, Vec3.sub_y, Vec3.sub_z]
  ring

/-! ## utils.calculate_camera_positions (camera ring on a circle) -/

/-- Embeds `utils.calculate_camera_positions`: for `i` in
`range(camera_count)`, the position at angle `(i / camera_count) * 2 * pi`
on the circle of radius `distance` around `center`, at the center's
height. -/
noncomputable def utils_calculate_camera_positions (center : Vec3)
    (distance : ℝ) (camera_count : ℕ) : List Vec3 :=
  (List.range camera_count).map (fun (i : ℕ) =>
    let angle := ((i : ℝ) / (camera_count : ℝ)) * 2 * Real.pi
    { x := center.x + distance * Real.cos angle
      y := center.y + distance * Real.sin angle
      z := center.z })

/-! ## Claim C7 -/

/-- The conclusion of claim C7: `utils.calculate_camera_positions` returns
exactly `n` positions, the `i`-th being
`(center.x + d*cos(2*pi*i/n), center.y + d*sin(2*pi*i/n), center.z)`. -/
def C7Spec (center : Vec3) (d : ℝ) (n : ℕ) : Prop :=
  (utils_calculate_camera_positions center d n).length = n ∧
  ∀ i, i < n →
    (utils_calculate_camera_positions center d n).getD i ⟨0, 0, 0⟩ =
      { x := center.x + d * Real.cos (2 * Real.pi * (i : ℝ) / (n : ℝ))
        y := center.y + d * Real.sin (2 * Real.pi * (i : ℝ) / (n : ℝ))
        z := center.z }

/-- C7: for every center point, distance `d` and `camera_count n ≥ 1`,
`utils.calculate_camera_positions` returns exactly `n` positions, the `i`-th
equal to `(center.x + d*cos(2*pi*i/n), center.y + d*sin(2*pi*i/n),
center.z)`: equally spaced on a circle of radius `d` around the center, all
at the center's height. -/
theorem C7_camera_ring_positions (center : Vec3) (d : ℝ) (n : ℕ)
    (hn : 1 ≤ n) : C7Spec center d n := by
  constructor
  · simp [utils_calculate_camera_positions]
  · intro i hi
    have hlen : i < (utils_calculate_camera_positions center d n).length := by
      simpa [utils_calculate_camera_positions] using hi
    rw [List.getD_eq_getElem _ _ hlen]
    simp only [utils_calculate_camera_positions, List.getElem_map,
      List.getElem_range]
    have hangle : ((i : ℝ) / (n : ℝ)) * 2 * Real.pi =
        2 * Real.pi * (i : ℝ) / (n : ℝ) := by ring
    rw [hangle]

/-- Witness for C7 at a concrete input (origin center, radius 5, four
cameras). -/
theorem C7_witness : C7Spec ⟨0, 0, 0⟩ 5 4 :=
  C7_camera_ring_positions ⟨0, 0, 0⟩ 5 4 (by norm_num)

/-! ## camera_utils.calculate_camera_positions (reference-camera ring) -/

/-- Embeds `camera_utils.calculate_camera_positions` with
`include_reference` as a parameter.  The reference camera is reduced to its
location and the rotation matrix of its `rotation_euler`; an entry of the
`camera_angles` collection is reduced to its `angle` value (radians).
`Euler.rotate(rotation_matrix)` composes the rotation matrix on the left
(`rotation_matrix @ euler_matrix`), which is the semantics used here. -/
noncomputable def camera_utils_calculate_camera_positions (center : Vec3)
    (camera_angles : List ℝ) (ref_loc : Vec3) (ref_rot : Mat3)
    (include_reference : Bool) : List (Vec3 × Mat3) :=
  let ref_to_center := center - ref_loc
  let base : List (Vec3 × Mat3) :=
    if include_reference then [(ref_loc, ref_rot)] else []
  let start_index := if include_reference then 1 else 0
  base ++ ((List.range camera_angles.length).drop start_index).map (fun i =>
    let angle_rad := camera_angles.getD i 0
    (center - rotZvec angle_rad ref_to_center, rotZ angle_rad * ref_rot))

/-! ## Claim C2 -/

/-- The conclusion of claim C2, with `include_reference = True`: the result
has one pose per angle; the first pose is the reference camera's location
and rotation; each subsequent pose `i` has position
`center - Rz(a_i) @ (center - ref_loc)` and rotation `Rz(a_i) @ ref_rot`;
each subsequent pose's offset from the pivot is the reference offset rotated
by the same `Rz(a_i)` (orientation relative to the pivot is preserved); and
every pose is at the same distance from the pivot as the reference
camera. -/
def C2Spec (center : Vec3) (camera_angles : List ℝ) (ref_loc : Vec3)
    (ref_rot : Mat3) : Prop :=
  (camera_utils_calculate_camera_positions center camera_angles ref_loc
      ref_rot true).length = camera_angles.length ∧
  (camera_utils_calculate_camera_positions center camera_angles ref_loc
      ref_rot true).getD 0 (⟨0, 0, 0⟩, ref_rot) = (ref_loc, ref_rot) ∧
  (∀ i, 1 ≤ i → i < camera_angles.length →
    (camera_utils_calculate_camera_positions center camera_angles ref_loc
        ref_rot true).getD i (⟨0, 0, 0⟩, ref_rot) =
      (center - rotZvec (camera_angles.getD i 0) (center - ref_loc),
       rotZ (camera_angles.getD i 0) * ref_rot)) ∧
  (∀ i, 1 ≤ i → i < camera_angles.length →
    ((camera_utils_calculate_camera_positions center camera_angles ref_loc
        ref_rot true).getD i (⟨0, 0, 0⟩, ref_rot)).1 - center =
      rotZvec (camera_angles.getD i 0) (ref_loc - center)) ∧
  (∀ i, i < camera_angles.length →
    Vec3.dist ((camera_utils_calculate_camera_positions center camera_angles
        ref_loc ref_rot true).getD i (⟨0, 0, 0⟩, ref_rot)).1 center =
      Vec3.dist ref_loc center)

lemma camera_positions_ref_length (center : Vec3) (camera_angles : List ℝ)
    (ref_loc : Vec3) (ref_rot : Mat3) (hne : camera_angles ≠ []) :
    (camera_utils_calculate_camera_positions center camera_angles ref_loc
      ref_rot true).length = camera_angles.length := by
  have hpos : 0 < camera_angles.length := List.length_pos.mpr hne
  simp only [camera_utils_calculate_camera_positions, if_true,
    List.length_append, List.length_map, List.length_drop, List.length_range,
    List.length_cons, List.length_nil]
  omega

lemma camera_positions_ref_head (center : Vec3) (camera_angles : List ℝ)
    (ref_loc : Vec3) (ref_rot : Mat3) :
    (camera_utils_calculate_camera_positions center camera_angles ref_loc
      ref_rot true).getD 0 (⟨0, 0, 0⟩, ref_rot) = (ref_loc, ref_rot) := by
  simp [camera_utils_calculate_camera_positions]

lemma camera_positions_ref_get (center : Vec3) (camera_angles : List ℝ)
    (ref_loc : Vec3) (ref_rot : Mat3) {i : ℕ} (h1 : 1 ≤ i)
    (h2 : i < camera_angles.length) :
    (camera_utils_calculate_camera_positions center camera_angles ref_loc
        ref_rot true).getD i (⟨0, 0, 0⟩, ref_rot) =
      (center - rotZvec (camera_angles.getD i 0) (center - ref_loc),
       rotZ (camera_angles.getD i 0) * ref_rot) := by
  simp only [camera_utils_calculate_camera_positions, if_true]
  rw [List.getD_append_right]
  · simp only [List.length_singleton]
    have hlen : i - 1 <
        (((List.range camera_angles.length).drop 1).map (fun i =>
          (center - rotZvec (camera_angles.getD i 0) (center - ref_loc),
           rotZ (camera_angles.getD i 0) * ref_rot))).length := by
      simp only [List.length_map, List.length_drop, List.length_range]
      omega
    rw [List.getD_eq_getElem _ _ hlen]
    simp only [List.length_cons, List.length_nil, List.getElem_map,
      List.getElem_drop, List.getElem_range]
    have : 1 + (i - 1) = i := by omega
    rw [this]
  · simp only [List.length_cons, List.length_nil]
    omega

lemma offset_rotZvec (a : ℝ) (center ref_loc : Vec3) :
    (center - rotZvec a (center - ref_loc)) - center =
      rotZvec a (ref_loc - center) := by
  ext <;> simp only [rotZvec, Vec3.sub_x, Vec3.sub_y, Vec3.sub_z] <;> ring

/-- C2: with `include_reference = True` and a non-empty angle list,
`camera_utils.calculate_camera_positions` returns one pose per angle; the
first pose is exactly the reference camera's location and rotation; pose `i`
(for `i ≥ 1`) has position `center - Rz(a_i) @ (center - ref.location)` and
rotation `Rz(a_i) @ ref.rotation`; its offset from the pivot is the
reference offset rotated by the same `Rz(a_i)` (the orientation relative to
the pivot is preserved); and every returned position is at the same
distance from the pivot as the reference camera. -/
theorem C2_reference_camera_ring (center : Vec3) (camera_angles : List ℝ)
    (ref_loc : Vec3) (ref_rot : Mat3) (hne : camera_angles ≠ []) :
    C2Spec center camera_angles ref_loc ref_rot := by
  refine ⟨camera_positions_ref_length center camera_angles ref_loc ref_rot hne,
    camera_positions_ref_head center camera_angles ref_loc ref_rot,
    fun i h1 h2 => camera_positions_ref_get center camera_angles ref_loc
      ref_rot h1 h2, ?_, ?_⟩
  · intro i h1 h2
    rw [camera_positions_ref_get center camera_angles ref_loc ref_rot h1 h2]
    exact offset_rotZvec _ center ref_loc
  · intro i hi
    rcases Nat.eq_zero_or_pos i with h0 | h1
    · subst h0
      rw [camera_positions_ref_head center camera_angles ref_loc ref_rot]
    · have hoff := offset_rotZvec (camera_angles.getD i 0) center ref_loc
      rw [camera_positions_ref_get center camera_angles ref_loc ref_rot h1 hi]
      unfold Vec3.dist
      rw [hoff, sqnorm_rotZvec, sqnorm_sub_comm ref_loc center]

/-- Witness for C2 at a concrete input (pivot at the origin, reference
camera at `(3, 0, 1)` with identity rotation, two angles). -/
theorem C2_witness :
    C2Spec ⟨0, 0, 0⟩ [0, Real.pi] ⟨3, 0, 1⟩ (1 : Mat3) :=
  C2_reference_camera_ring ⟨0, 0, 0⟩ [0, Real.pi] ⟨3, 0, 1⟩ (1 : Mat3)
    (by simp)

/-! ## render_utils.are_images_very_similar -/

/-- An image as loaded by `bpy.data.images.load`: a width, a height and a
flat RGBA float pixel buffer (4 floats per pixel, row 0 at the bottom). -/
structure PyImage where
  width : ℕ
  height : ℕ
  pixels : List ℚ
  deriving Repr, DecidableEq

/-- Python `range(0, stop, step)` for `step ≥ 1`: the multiples of `step`
below `stop`. -/
def rangeStep (stop step : ℕ) : List ℕ :=
  (List.range (pyCeilDiv stop step)).map (· * step)

/-- The luminance `0.299*R + 0.587*G + 0.114*B` computed by
`are_images_very_similar`. -/
def luminance (r g b : ℚ) : ℚ :=
  299 / 1000 * r + 587 / 1000 * g + 114 / 1000 * b

/-- The similarity threshold `0.00003` of `are_images_very_similar`. -/
def similarity_threshold : ℚ := 3 / 100000

/-- The list of absolute luminance differences accumulated by the sampling
loops of `are_images_very_similar`: `y` ranges over `range(0, height,
step_y)` and `x` over `range(0, width, step_x)` with
`step_x = max(1, width // 8)` and `step_y = max(1, height // 8)`; a sample
is taken when `y < height and x < width` and `pixel_idx + 2 <
len(pixels1)`.  The loop's `total_diff` is the sum of this list and its
`sample_count` is the list's length. -/
def sampleDiffs (img1 img2 : PyImage) : List ℚ :=
  let w := img1.width
  let h := img1.height
  let step_x := max 1 (w / 8)
  let step_y := max 1 (h / 8)
  (rangeStep h step_y).flatMap (fun y =>
    (rangeStep w step_x).filterMap (fun x =>
      if y < h ∧ x < w then
        let pixel_idx := (y * w + x) * 4
        if pixel_idx + 2 < img1.pixels.length then
          some (|luminance (img1.pixels.getD pixel_idx 0)
                   (img1.pixels.getD (pixel_idx + 1) 0)
                   (img1.pixels.getD (pixel_idx + 2) 0) -
                 luminance (img2.pixels.getD pixel_idx 0)
                   (img2.pixels.getD (pixel_idx + 1) 0)
                   (img2.pixels.getD (pixel_idx + 2) 0)|)
        else none
      else none))

/-- Embeds `render_utils.are_images_very_similar`.  The filesystem is a
function from paths to optionally-loadable images (`none` = missing
file). -/
def are_images_very_similar (fs : String → Option PyImage)
    (image_path1 image_path2 : String) : Bool :=
  match fs image_path1, fs image_path2 with
  | some img1, some img2 =>
    if (img1.width, img1.height) ≠ (img2.width, img2.height) then false
    else if img1.pixels.length ≠ img2.pixels.length then false
    else
      let diffs := sampleDiffs img1 img2
      if diffs.length = 0 then false
      else decide (diffs.sum / (diffs.length : ℚ) < similarity_threshold)
  | _, _ => false

/-! ## Claim C9 -/

lemma sampleDiffs_comm (img1 img2 : PyImage) (hw : img1.width = img2.width)
    (hh : img1.height = img2.height)
    (hlen : img1.pixels.length = img2.pixels.length) :
    sampleDiffs img1 img2 = sampleDiffs img2 img1 := by
  unfold sampleDiffs
  rw [← hw, ← hh, ← hlen]
  refine congrArg (List.flatMap _) ?_
  funext y
  refine congrArg (List.filterMap · _) ?_
  funext x
  by_cases hyx : y < img1.height ∧ x < img1.width
  · simp only [hyx, if_true]
    by_cases hidx : (y * img1.width + x) * 4 + 2 < img1.pixels.length
    · simp only [hidx, if_true, abs_sub_comm]
    · simp only [hidx, if_false]
  · simp only [hyx, if_false]

/-- C9: `are_images_very_similar` is symmetric in its two image paths: the
existence, dimension and pixel-count checks are applied to both arguments,
and the sampled comparison takes absolute differences at identical pixel
indices. -/
theorem C9_similarity_symmetric (fs : String → Option PyImage)
    (image_path1 image_path2 : String) :
    are_images_very_similar fs image_path1 image_path2 =
      are_images_very_similar fs image_path2 image_path1 := by
  unfold are_images_very_similar
  cases h1 : fs image_path1 <;> cases h2 : fs image_path2
  case none.none => rfl
  case none.some img => rfl
  case some.none img => rfl
  case some.some img1 img2 =>
    dsimp only
    by_cases hsz : (img1.width, img1.height) = (img2.width, img2.height)
    · have hw : img1.width = img2.width := congrArg Prod.fst hsz
      have hh : img1.height = img2.height := congrArg Prod.snd hsz
      by_cases hlen : img1.pixels.length = img2.pixels.length
      · rw [if_neg (not_not_intro hsz), if_neg (not_not_intro hsz.symm),
          if_neg (not_not_intro hlen), if_neg (not_not_intro hlen.symm),
          sampleDiffs_comm img1 img2 hw hh hlen]
      · rw [if_neg (not_not_intro hsz), if_neg (not_not_intro hsz.symm),
          if_pos hlen, if_pos (fun h => hlen h.symm)]
    · rw [if_pos hsz, if_pos (fun h => hsz h.symm)]

/-! ## Claim C4 -/

/-- Reference definition following the words of claim C4: the samples are
the absolute luminance differences at every grid point `(x, y)` with `x` a
multiple of `max(1, width // 8)` below `width` and `y` a multiple of
`max(1, height // 8)` below `height` (no pixel-buffer bounds guard). -/
def specSampleDiffs (img1 img2 : PyImage) : List ℚ :=
  (rangeStep img1.height (max 1 (img1.height / 8))).flatMap (fun y =>
    (rangeStep img1.width (max 1 (img1.width / 8))).map (fun x =>
      |luminance (img1.pixels.getD ((y * img1.width + x) * 4) 0)
         (img1.pixels.getD ((y * img1.width + x) * 4 + 1) 0)
         (img1.pixels.getD ((y * img1.width + x) * 4 + 2) 0) -
       luminance (img2.pixels.getD ((y * img1.width + x) * 4) 0)
         (img2.pixels.getD ((y * img1.width + x) * 4 + 1) 0)
         (img2.pixels.getD ((y * img1.width + x) * 4 + 2) 0)|))

/-- Reference predicate following the words of claim C4: both files exist,
dimensions and pixel-buffer lengths agree, the sample set is non-empty, and
the average absolute sampled luminance difference is strictly below
`0.00003`. -/
def spec_similar (fs : String → Option PyImage)
    (image_path1 image_path2 : String) : Prop :=
  ∃ img1 img2, fs image_path1 = some img1 ∧ fs image_path2 = some img2 ∧
    img1.width = img2.width ∧ img1.height = img2.height ∧
    img1.pixels.length = img2.pixels.length ∧
    specSampleDiffs img1 img2 ≠ [] ∧
    (specSampleDiffs img1 img2).sum / ((specSampleDiffs img1 img2).length : ℚ)
      < similarity_threshold

lemma mem_rangeStep {stop step x : ℕ} (hstep : 1 ≤ step)
    (hx : x ∈ rangeStep stop step) : x < stop := by
  unfold rangeStep at hx
  obtain ⟨k, hk, rfl⟩ := List.mem_map.mp hx
  have hk' : k < pyCeilDiv stop step := List.mem_range.mp hk
  by_contra h
  push_neg at h
  have h2 : stop + step - 1 < (k + 1) * step := by
    have hexp : (k + 1) * step = k * step + step := by ring
    omega
  have h3 := (Nat.div_lt_iff_lt_mul (by omega : 0 < step)).mpr h2
  unfold pyCeilDiv at hk'
  omega

lemma filterMap_eq_map_of_forall {α β : Type} (l : List α) (f : α → Option β)
    (g : α → β) (h : ∀ x ∈ l, f x = some (g x)) : l.filterMap f = l.map g := by
  induction l with
  | nil => rfl
  | cons a as ih =>
    rw [List.filterMap_cons, h a (List.mem_cons_self a as), List.map_cons,
      ih (fun x hx => h x (List.mem_cons_of_mem a hx))]

lemma flatMap_congr_mem {α β : Type} (l : List α) (f g : α → List β)
    (h : ∀ a ∈ l, f a = g a) : l.flatMap f = l.flatMap g := by
  induction l with
  | nil => rfl
  | cons a as ih =>
    rw [List.flatMap_cons, List.flatMap_cons, h a (List.mem_cons_self a as),
      ih (fun x hx => h x (List.mem_cons_of_mem a hx))]

/-- On a well-formed RGBA buffer (`len(pixels) = 4 * width * height`, as
holds for every image loaded by the host), the guarded sampling loop of
`are_images_very_similar` takes exactly the grid samples of the spec. -/
lemma sampleDiffs_eq_spec (img1 img2 : PyImage)
    (hwf : img1.pixels.length = 4 * img1.width * img1.height) :
    sampleDiffs img1 img2 = specSampleDiffs img1 img2 := by
  unfold sampleDiffs specSampleDiffs
  apply flatMap_congr_mem
  intro y hy
  have hyh : y < img1.height := mem_rangeStep (le_max_left 1 _) hy
  apply filterMap_eq_map_of_forall
  intro x hx
  have hxw : x < img1.width := mem_rangeStep (le_max_left 1 _) hx
  rw [if_pos (⟨hyh, hxw⟩ : y < img1.height ∧ x < img1.width)]
  have h1 : y * img1.width + x < img1.width * img1.height := by
    calc y * img1.width + x < y * img1.width + img1.width := by omega
      _ = (y + 1) * img1.width := by ring
      _ ≤ img1.height * img1.width := Nat.mul_le_mul_right _ (by omega)
      _ = img1.width * img1.height := Nat.mul_comm _ _
  have hidx : (y * img1.width + x) * 4 + 2 < img1.pixels.length := by
    rw [hwf]
    have h4 : 4 * img1.width * img1.height =
        4 * (img1.width * img1.height) := by ring
    omega
  rw [if_pos hidx]

/-- C4: on well-formed images (RGBA buffers of length `4*width*height`, as
the host guarantees), `are_images_very_similar(a, b)` returns `True` if and
only if both files exist, dimensions and pixel-buffer lengths agree, the
sample set is non-empty, and the average absolute luminance difference
(luminance `0.299*R + 0.587*G + 0.114*B`) over the grid samples with steps
`max(1, width // 8)` and `max(1, height // 8)` is strictly below `0.00003`;
any missing file, dimension mismatch, pixel-count mismatch or empty sample
set yields `False`. -/
theorem C4_similarity_characterisation (fs : String → Option PyImage)
    (image_path1 image_path2 : String)
    (hwf : ∀ p img, fs p = some img →
      img.pixels.length = 4 * img.width * img.height) :
    are_images_very_similar fs image_path1 image_path2 = true ↔
      spec_similar fs image_path1 image_path2 := by
  unfold are_images_very_similar spec_similar
  cases h1 : fs image_path1 <;> cases h2 : fs image_path2
  case none.none => simp
  case none.some img => simp
  case some.none img => simp
  case some.some img1 img2 =>
    dsimp only
    simp only [Option.some.injEq]
    constructor
    · intro hdec
      by_cases hsz : (img1.width, img1.height) = (img2.width, img2.height)
      · have hw : img1.width = img2.width := congrArg Prod.fst hsz
        have hh : img1.height = img2.height := congrArg Prod.snd hsz
        by_cases hlen : img1.pixels.length = img2.pixels.length
        · rw [if_neg (not_not_intro hsz), if_neg (not_not_intro hlen),
            sampleDiffs_eq_spec img1 img2 (hwf image_path1 img1 h1)] at hdec
          by_cases h0 : (specSampleDiffs img1 img2).length = 0
          · rw [if_pos h0] at hdec; cases hdec
          · rw [if_neg h0] at hdec
            refine ⟨img1, img2, rfl, rfl, hw, hh, hlen, ?_, of_decide_eq_true hdec⟩
            intro hnil
            exact h0 (by rw [hnil]; rfl)
        · rw [if_neg (not_not_intro hsz), if_pos hlen] at hdec; cases hdec
      · rw [if_pos hsz] at hdec; cases hdec
    · rintro ⟨i1, i2, rfl, rfl, hw, hh, hlen, hne, hlt⟩
      have hsz : (img1.width, img1.height) = (img2.width, img2.height) := by
        rw [hw, hh]
      rw [if_neg (not_not_intro hsz), if_neg (not_not_intro hlen),
        sampleDiffs_eq_spec img1 img2 (hwf image_path1 img1 h1)]
      have h0 : (specSampleDiffs img1 img2).length ≠ 0 := by
        intro h
        exact hne (List.length_eq_zero.mp h)
      rw [if_neg h0]
      exact decide_eq_true hlt

/-- A concrete well-formed 1x1 image used by witnesses. -/
def unitImage : PyImage := ⟨1, 1, [0, 0, 0, 1]⟩

/-- A concrete filesystem on which every path resolves to `unitImage`. -/
def unitFs : String → Option PyImage := fun _ => some unitImage

/-- Witness for C4 at a concrete filesystem and pair of paths. -/
theorem C4_witness :
    are_images_very_similar unitFs "a" "b" = true ↔ spec_similar unitFs "a" "b" :=
  C4_similarity_characterisation unitFs "a" "b"
    (by intro p img h; cases h; rfl)

/-! ## render_utils.should_skip_duplicate_frame and the per-camera loop -/

/-- Embeds `render_utils.should_skip_duplicate_frame`: never skip when there
is no previous frame; otherwise skip exactly when the two images are very
similar.  Returns `(should_skip, current_image_path)`. -/
def should_skip_duplicate_frame (fs : String → Option PyImage)
    (current_image_path : String) (previous_image_path : Option String) :
    Bool × String :=
  match previous_image_path with
  | none => (false, current_image_path)
  | some prev => (are_images_very_similar fs current_image_path prev,
      current_image_path)

/-- Embeds `render_operator.extend_frame_durations` for one pass:
`frame_durations[-1] += 1` when the list is non-empty (no change
otherwise). -/
def extend_frame_durations : List ℕ → List ℕ
  | [] => []
  | [d] => [d + 1]
  | d :: rest => d :: extend_frame_durations rest

/-- The per-pass loop state of `_render_all_passes` (projected to one
enabled pass; the loop updates every pass's lists identically): the kept
frame paths (`all_pass_frames`), the run-length duration list
(`frame_durations`) and the duplicate tracker's
`previous_frame_path`. -/
structure PassRenderState where
  all_pass_frames : List String
  frame_durations : List ℕ
  previous_frame_path : Option String
  deriving Repr, DecidableEq

/-- One iteration of the frame loop of `_render_all_passes`
(`process_duplicate_detection` followed by `extend_frame_durations` or
`add_frame_to_passes`). -/
def renderFrameStep (fs : String → Option PyImage) (framePath : ℕ → String)
    (st : PassRenderState) (frame_offset : ℕ) : PassRenderState :=
  let res := should_skip_duplicate_frame fs (framePath frame_offset)
    st.previous_frame_path
  if res.1 then
    { all_pass_frames := st.all_pass_frames
      frame_durations := extend_frame_durations st.frame_durations
      previous_frame_path := some res.2 }
  else
    { all_pass_frames := st.all_pass_frames ++ [framePath frame_offset]
      frame_durations := st.frame_durations ++ [1]
      previous_frame_path := some res.2 }

/-- The frame loop of `_render_all_passes` with duplicate skipping enabled,
over `frame_count` frames, starting from empty lists and no previous
frame. -/
def render_all_passes_loop (fs : String → Option PyImage)
    (framePath : ℕ → String) (frame_count : ℕ) : PassRenderState :=
  (List.range frame_count).foldl (renderFrameStep fs framePath)
    ⟨[], [], none⟩

/-! ### Behaviour of `extend_frame_durations` -/

lemma extend_frame_durations_length (l : List ℕ) :
    (extend_frame_durations l).length = l.length := by
  induction l with
  | nil => rfl
  | cons d rest ih =>
    cases rest with
    | nil => rfl
    | cons e tail =>
      simp only [extend_frame_durations] at ih ⊢
      simp [ih]

lemma extend_frame_durations_sum (l : List ℕ) (h : l ≠ []) :
    (extend_frame_durations l).sum = l.sum + 1 := by
  induction l with
  | nil => cases h rfl
  | cons d rest ih =>
    cases rest with
    | nil => simp [extend_frame_durations]
    | cons e tail =>
      have := ih (by simp)
      simp only [extend_frame_durations] at this ⊢
      simp only [List.sum_cons] at this ⊢
      omega

lemma extend_frame_durations_mem (l : List ℕ) (h : ∀ d ∈ l, 1 ≤ d) :
    ∀ d ∈ extend_frame_durations l, 1 ≤ d := by
  induction l with
  | nil => simp [extend_frame_durations]
  | cons d rest ih =>
    cases rest with
    | nil =>
      intro x hx
      simp only [extend_frame_durations, List.mem_singleton] at hx
      omega
    | cons e tail =>
      intro x hx
      simp only [extend_frame_durations, List.mem_cons] at hx
      rcases hx with rfl | hx
      · exact h x (List.mem_cons_self x _)
      · exact ih (fun y hy => h y (List.mem_cons_of_mem d hy)) x hx

/-! ### Step equations for the frame loop -/

lemma renderFrameStep_first (fs : String → Option PyImage)
    (framePath : ℕ → String) (st : PassRenderState) (i : ℕ)
    (hprev : st.previous_frame_path = none) :
    renderFrameStep fs framePath st i =
      { all_pass_frames := st.all_pass_frames ++ [framePath i]
        frame_durations := st.frame_durations ++ [1]
        previous_frame_path := some (framePath i) } := by
  unfold renderFrameStep should_skip_duplicate_frame
  rw [hprev]
  rfl

lemma renderFrameStep_skip (fs : String → Option PyImage)
    (framePath : ℕ → String) (st : PassRenderState) (i : ℕ) (p : String)
    (hprev : st.previous_frame_path = some p)
    (hsim : are_images_very_similar fs (framePath i) p = true) :
    renderFrameStep fs framePath st i =
      { all_pass_frames := st.all_pass_frames
        frame_durations := extend_frame_durations st.frame_durations
        previous_frame_path := some (framePath i) } := by
  unfold renderFrameStep should_skip_duplicate_frame
  rw [hprev]
  simp [hsim]

lemma renderFrameStep_keep (fs : String → Option PyImage)
    (framePath : ℕ → String) (st : PassRenderState) (i : ℕ) (p : String)
    (hprev : st.previous_frame_path = some p)
    (hsim : are_images_very_similar fs (framePath i) p = false) :
    renderFrameStep fs framePath st i =
      { all_pass_frames := st.all_pass_frames ++ [framePath i]
        frame_durations := st.frame_durations ++ [1]
        previous_frame_path := some (framePath i) } := by
  unfold renderFrameStep should_skip_duplicate_frame
  rw [hprev]
  simp [hsim]

/-- The loop invariant for claim C5: durations match kept frames, every
duration is at least 1, durations sum to the number of processed frames,
and the duration list is empty only before the first frame. -/
def C5Inv (k : ℕ) (st : PassRenderState) : Prop :=
  st.frame_durations.length = st.all_pass_frames.length ∧
  (∀ d ∈ st.frame_durations, 1 ≤ d) ∧
  st.frame_durations.sum = k ∧
  (st.frame_durations = [] → st.previous_frame_path = none)

lemma renderFrameStep_inv (fs : String → Option PyImage)
    (framePath : ℕ → String) (k i : ℕ) (st : PassRenderState)
    (h : C5Inv k st) : C5Inv (k + 1) (renderFrameStep fs framePath st i) := by
  obtain ⟨h1, h2, h3, h4⟩ := h
  cases hprev : st.previous_frame_path with
  | none =>
    rw [renderFrameStep_first fs framePath st i hprev]
    refine ⟨by simp [h1], ?_, by simp [h3], by simp⟩
    intro d hd
    rcases List.mem_append.mp hd with hd | hd
    · exact h2 d hd
    · simp only [List.mem_singleton] at hd
      omega
  | some p =>
    have hne : st.frame_durations ≠ [] := by
      intro h0
      rw [h4 h0] at hprev
      cases hprev
    cases hsim : are_images_very_similar fs (framePath i) p with
    | true =>
      rw [renderFrameStep_skip fs framePath st i p hprev hsim]
      refine ⟨?_, ?_, ?_, ?_⟩
      · simpa [extend_frame_durations_length] using h1
      · exact extend_frame_durations_mem _ h2
      · rw [extend_frame_durations_sum _ hne, h3]
      · intro h0
        exfalso
        have h0' : extend_frame_durations st.frame_durations = [] := h0
        have hlen := extend_frame_durations_length st.frame_durations
        rw [h0'] at hlen
        have hz : st.frame_durations.length = 0 := by simpa using hlen.symm
        exact hne (List.length_eq_zero.mp hz)
    | false =>
      rw [renderFrameStep_keep fs framePath st i p hprev hsim]
      refine ⟨by simp [h1], ?_, by simp [h3], by simp⟩
      intro d hd
      rcases List.mem_append.mp hd with hd | hd
      · exact h2 d hd
      · simp only [List.mem_singleton] at hd
        omega

lemma render_all_passes_loop_inv (fs : String → Option PyImage)
    (framePath : ℕ → String) (F : ℕ) :
    C5Inv F (render_all_passes_loop fs framePath F) := by
  induction F with
  | zero => exact ⟨rfl, by simp [render_all_passes_loop], rfl, fun _ => rfl⟩
  | succ k ih =>
    unfold render_all_passes_loop at ih ⊢
    rw [List.range_succ, List.foldl_append, List.foldl_cons, List.foldl_nil]
    exact renderFrameStep_inv fs framePath k k _ ih

/-! ## Claim C5 -/

/-- The conclusion of claim C5: for the per-camera frame loop with
duplicate skipping, the first frame is never skipped; a kept frame appends
one duration entry equal to 1 and a skipped frame increments the last
entry; and after `F` frames the duration list has one entry per kept
frame, every entry is `≥ 1`, and the entries sum to `F`. -/
def C5Spec (fs : String → Option PyImage) (framePath : ℕ → String)
    (F : ℕ) : Prop :=
  (should_skip_duplicate_frame fs (framePath 0) none).1 = false ∧
  (∀ st : PassRenderState, ∀ i : ℕ,
    (should_skip_duplicate_frame fs (framePath i) st.previous_frame_path).1
        = false →
      (renderFrameStep fs framePath st i).frame_durations =
        st.frame_durations ++ [1]) ∧
  (∀ st : PassRenderState, ∀ i : ℕ,
    (should_skip_duplicate_frame fs (framePath i) st.previous_frame_path).1
        = true →
      (renderFrameStep fs framePath st i).frame_durations =
        extend_frame_durations st.frame_durations) ∧
  (render_all_passes_loop fs framePath F).frame_durations.length =
    (render_all_passes_loop fs framePath F).all_pass_frames.length ∧
  (∀ d ∈ (render_all_passes_loop fs framePath F).frame_durations, 1 ≤ d) ∧
  (render_all_passes_loop fs framePath F).frame_durations.sum = F

/-- C5: during the per-camera render loop over `F ≥ 1` frames with
duplicate skipping enabled, the first frame is never skipped
(`should_skip_duplicate_frame` returns `False` when there is no previous
frame); each kept frame appends exactly one duration entry of 1; each
skipped frame increments the last entry by 1; and after processing, the
number of duration entries equals the number of kept frames, every
duration is `≥ 1`, and the durations sum to `F`. -/
theorem C5_run_length_invariant (fs : String → Option PyImage)
    (framePath : ℕ → String) (F : ℕ) (hF : 1 ≤ F) :
    C5Spec fs framePath F := by
  have hinv := render_all_passes_loop_inv fs framePath F
  obtain ⟨h1, h2, h3, _⟩ := hinv
  refine ⟨rfl, ?_, ?_, h1, h2, h3⟩
  · intro st i hres
    simp [renderFrameStep, hres]
  · intro st i hres
    simp [renderFrameStep, hres]

/-- Witness for C5 at a concrete input (the `unitFs` filesystem, frame
paths indexed by `toString`, three frames). -/
theorem C5_witness : C5Spec unitFs (fun i => toString i) 3 :=
  C5_run_length_invariant unitFs (fun i => toString i) 3 (by norm_num)

/-! ## Claim C6: the metadata call in `execute_mcsr`

`render_utils.generate_metadata_dict` takes seven parameters
(`actions_to_render, fps, frame_width, frame_height, grid_cols,
enabled_passes, frame_durations`), of which only the last has a default.
`MultiCamSpriteRenderOperator.execute_mcsr` calls it with five positional
arguments (`actions_to_render, fps, actual_render_x, actual_render_y,
frame_durations-or-None`), so the call underflows the six required
parameters and raises `TypeError` before `save_metadata_json` can run; the
surrounding `except` turns this into a `CANCELLED` report, so
`metadata.json` is never written. -/

/-- A Python function signature: positional parameter names in order and
the number of trailing parameters that carry default values. -/
structure PySignature where
  params : List String
  defaults : ℕ
  deriving Repr, DecidableEq

/-- Whether a Python call passing `nargs` positional arguments (and no
keyword arguments) binds to `sig` without raising `TypeError`. -/
def bindsPositional (sig : PySignature) (nargs : ℕ) : Bool :=
  decide (sig.params.length - sig.defaults ≤ nargs ∧
    nargs ≤ sig.params.length)

/-- The signature of `render_utils.generate_metadata_dict`. -/
def generate_metadata_dict_sig : PySignature :=
  { params := ["actions_to_render", "fps", "frame_width", "frame_height",
      "grid_cols", "enabled_passes", "frame_durations"]
    defaults := 1 }

/-- The number of positional arguments that
`MultiCamSpriteRenderOperator.execute_mcsr` passes to
`generate_metadata_dict` (`render_operator.py`, lines 167-173). -/
def execute_mcsr_metadata_call_nargs : ℕ := 5

/-- C6 (counter-evidence): the `generate_metadata_dict` call in
`execute_mcsr` does not bind — five positional arguments cannot satisfy
the six required parameters — so the call raises `TypeError` on every
render that reaches the metadata step, and `metadata.json` is never
written after a render.  The claim describes the clearly intended
behaviour; the call site is the slip. -/
theorem C6_metadata_call_does_not_bind :
    bindsPositional generate_metadata_dict_sig
      execute_mcsr_metadata_call_nargs = false := by decide

/-! ## Claim C10: cleanup in `execute_mcsr` -/

/-- The scene state mutated by `mcsr.render`, reduced to what the claim is
about: the active camera, the current frame, the target object's animation
action (with a flag recording whether the target still exists and has
animation data at cleanup time), the compositor node names, and the debug
preserve flag. -/
structure SceneState where
  camera : Option String
  frame : ℤ
  action : Option String
  target_has_animation_data : Bool
  nodes : List String
  preserve_compositor : Bool
  deriving Repr, DecidableEq

/-- The `render_context` dictionary captured by `_setup_render_context`. -/
structure RenderContext where
  original_camera : Option String
  original_frame : ℤ
  original_action : Option String
  deriving Repr, DecidableEq

/-- Embeds `utils.cleanup_compositor_nodes`: removes every node whose name
starts with `"MCSR_"`. -/
def cleanup_compositor_nodes (nodes : List String) : List String :=
  nodes.filter (fun n => !(n.startsWith "MCSR_"))

/-- Embeds `_cleanup_render_context`: restore the original camera, frame
and (if the target object still has animation data) the original action,
then remove the MCSR compositor nodes unless the debug preserve flag is
set. -/
def cleanup_render_context (ctx : RenderContext) (s : SceneState) :
    SceneState :=
  let s1 := { s with camera := ctx.original_camera }
  let s2 := { s1 with frame := ctx.original_frame }
  let s3 := if s2.target_has_animation_data then
      { s2 with action := ctx.original_action } else s2
  if s3.preserve_compositor then s3
  else { s3 with nodes := cleanup_compositor_nodes s3.nodes }

/-- Embeds the `try ... finally` structure of `execute_mcsr` from the point
where `_setup_render_context` has captured the original state: the body
(the rendering pipeline) transforms the scene state arbitrarily and either
finishes (`none`) or raises (`some e`); the `finally` block runs
`_cleanup_render_context` on the resulting state in both cases. -/
def execute_mcsr_with_body {E : Type} (s0 : SceneState)
    (body : SceneState → Option E × SceneState) : SceneState :=
  let ctx : RenderContext :=
    { original_camera := s0.camera
      original_frame := s0.frame
      original_action := s0.action }
  cleanup_render_context ctx (body s0).2

/-- The conclusion of claim C10: whatever the body did and whether or not
it raised, the final state has the original camera, the original frame,
the original action (when the target still has animation data at cleanup),
and — unless the debug preserve flag is set — no compositor node whose
name starts with `"MCSR_"`. -/
def C10Spec {E : Type} (s0 : SceneState)
    (body : SceneState → Option E × SceneState) : Prop :=
  (execute_mcsr_with_body s0 body).camera = s0.camera ∧
  (execute_mcsr_with_body s0 body).frame = s0.frame ∧
  ((body s0).2.target_has_animation_data = true →
    (execute_mcsr_with_body s0 body).action = s0.action) ∧
  ((body s0).2.preserve_compositor = false →
    ∀ n ∈ (execute_mcsr_with_body s0 body).nodes,
      n.startsWith "MCSR_" = false)

/-- C10: `mcsr.render` restores the scene state it mutates regardless of
outcome — whether the rendering body finishes or raises, the `finally`
cleanup restores the original active camera, the original current frame
and the target object's original animation action, and (unless the debug
preserve flag is set) removes all `MCSR_`-prefixed compositor nodes,
leaving none in the scene's node tree. -/
lemma cleanup_camera (ctx : RenderContext) (s : SceneState) :
    (cleanup_render_context ctx s).camera = ctx.original_camera := by
  unfold cleanup_render_context
  by_cases h1 : s.target_has_animation_data <;>
    by_cases h2 : s.preserve_compositor <;> simp [h1, h2]

lemma cleanup_frame (ctx : RenderContext) (s : SceneState) :
    (cleanup_render_context ctx s).frame = ctx.original_frame := by
  unfold cleanup_render_context
  by_cases h1 : s.target_has_animation_data <;>
    by_cases h2 : s.preserve_compositor <;> simp [h1, h2]

lemma cleanup_action (ctx : RenderContext) (s : SceneState)
    (h : s.target_has_animation_data = true) :
    (cleanup_render_context ctx s).action = ctx.original_action := by
  unfold cleanup_render_context
  by_cases h2 : s.preserve_compositor <;> simp [h, h2]

lemma cleanup_nodes (ctx : RenderContext) (s : SceneState)
    (h : s.preserve_compositor = false) :
    (cleanup_render_context ctx s).nodes =
      cleanup_compositor_nodes s.nodes := by
  unfold cleanup_render_context
  by_cases h1 : s.target_has_animation_data <;> simp [h1, h]

/-- C10: `mcsr.render` restores the scene state it mutates regardless of
outcome — whether the rendering body finishes or raises, the `finally`
cleanup restores the original active camera, the original current frame
and the target object's original animation action, and (unless the debug
preserve flag is set) removes all `MCSR_`-prefixed compositor nodes,
leaving none in the scene's node tree. -/
theorem C10_cleanup_restores_state {E : Type} (s0 : SceneState)
    (body : SceneState → Option E × SceneState) : C10Spec s0 body := by
  unfold C10Spec execute_mcsr_with_body
  refine ⟨cleanup_camera _ _, cleanup_frame _ _, ?_, ?_⟩
  · intro h
    exact cleanup_action _ _ h
  · intro h n hn
    rw [cleanup_nodes _ _ h] at hn
    unfold cleanup_compositor_nodes at hn
    have := List.of_mem_filter hn
    simpa using this

/-- Witness for C10 at a concrete input: a scene holding two compositor
nodes (one MCSR-created), with a body that mutates every field and then
raises. -/
theorem C10_witness :
    @C10Spec Unit
      { camera := some "Camera"
        frame := 7
        action := some "Run"
        target_has_animation_data := true
        nodes := ["Composite", "MCSR_Output_lit"]
        preserve_compositor := false }
      (fun s => (some (),
        { s with
          camera := none
          frame := 99
          action := none
          nodes := "MCSR_RenderLayers" :: s.nodes })) :=
  C10_cleanup_restores_state _ _

/-! ## utils.create_sprite_sheet_from_temp_files -/

/-- The sprite sheet produced by `create_sprite_sheet_from_temp_files`
(the `bpy.data.images.new` image together with the pixel buffer assigned to
it, row 0 at the bottom as in the host's image API). -/
structure SpriteSheet where
  width : ℕ
  height : ℕ
  pixels : List ℚ
  deriving Repr, DecidableEq

/-- Python slice assignment `pixels[dest:dest+4] = src[s:s+4]` for a
4-float RGBA pixel. -/
def setSlice4 (px : List ℚ) (dest : ℕ) (src : List ℚ) (s : ℕ) : List ℚ :=
  (((px.set dest (src.getD s 0)).set (dest + 1) (src.getD (s + 1) 0)).set
    (dest + 2) (src.getD (s + 2) 0)).set (dest + 3) (src.getD (s + 3) 0)

/-- The body of the innermost pixel-copy loop of
`create_sprite_sheet_from_temp_files`: for pixel `(x, y)` of the frame,
copy `img.pixels[src_idx:src_idx+4]` to `pixels[dest_idx:dest_idx+4]` with
Y-coordinate flipping of both source and destination rows and an in-bounds
guard on both indices. -/
def blitInnerStep (sheet_width sheet_height start_x start_y : ℕ)
    (img : PyImage) (y : ℕ) (px : List ℚ) (x : ℕ) : List ℚ :=
  let src_y := img.height - 1 - y
  let src_idx := (src_y * img.width + x) * 4
  let dest_x := start_x + x
  let dest_y := sheet_height - 1 - (start_y + y)
  let dest_idx := (dest_y * sheet_width + dest_x) * 4
  if src_idx < img.pixels.length ∧ dest_idx < px.length then
    setSlice4 px dest_idx img.pixels src_idx
  else px

/-- One iteration of the row loop: `for x in range(copy_width)` over one
source row `y`. -/
def blitRow (sheet_width sheet_height start_x start_y : ℕ) (img : PyImage)
    (px : List ℚ) (y : ℕ) : List ℚ :=
  (List.range img.width).foldl
    (blitInnerStep sheet_width sheet_height start_x start_y img y) px

/-- The per-frame pixel-copy loop of `create_sprite_sheet_from_temp_files`
(`for y in range(copy_height): for x in range(copy_width): ...`), placed at
grid cell `(i % cols, i // cols)`. -/
def blitImage (sheet_width sheet_height actual_img_width actual_img_height
    spacing cols : ℕ) (img : PyImage) (i : ℕ) (pixels : List ℚ) :
    List ℚ :=
  let col := i % cols
  let row := i / cols
  let start_x := col * (actual_img_width + spacing)
  let start_y := row * (actual_img_height + spacing)
  (List.range img.height).foldl
    (blitRow sheet_width sheet_height start_x start_y img) pixels

/-- One iteration of the camera loop of
`create_sprite_sheet_from_temp_files`: blit frame `i` when
`i < len(temp_files)` (the file existence check holds for every globbed
file), otherwise leave the sheet unchanged. -/
def sheetFoldStep (temp_files : List PyImage) (img0 : PyImage)
    (sheet_width sheet_height actual_img_width actual_img_height
      spacing cols : ℕ) (px : List ℚ) (i : ℕ) : List ℚ :=
  if i < temp_files.length then
    blitImage sheet_width sheet_height actual_img_width actual_img_height
      spacing cols (temp_files.getD i img0) i px
  else px

/-- Embeds `utils.create_sprite_sheet_from_temp_files`.  `temp_files` is
the sorted list of per-camera frame images for the pass, already loaded
(the glob, the dimension probe of the first file and the final save are
host I/O); `none` models the assertion failure when no file matches.  The
grid is `cols = ceil(sqrt(camera_count))`, `rows = ceil(camera_count /
cols)`; the sheet is `cols*W + (cols-1)*spacing` by `rows*H +
(rows-1)*spacing` where `W`, `H` are the probed dimensions of the first
file; the buffer starts all transparent (`0.0`) and each frame `i <
camera_count` with `i < len(temp_files)` is blitted into grid cell
`(i % cols, i // cols)`. -/
def create_sprite_sheet_from_temp_files (camera_count spacing : ℕ)
    (temp_files : List PyImage) : Option SpriteSheet :=
  match temp_files with
  | [] => none
  | img0 :: _ =>
    let cols := pyCeilSqrt camera_count
    let rows := pyCeilDiv camera_count cols
    let actual_img_width := img0.width
    let actual_img_height := img0.height
    let sheet_width := cols * actual_img_width + (cols - 1) * spacing
    let sheet_height := rows * actual_img_height + (rows - 1) * spacing
    let pixels0 := List.replicate (sheet_width * sheet_height * 4) (0 : ℚ)
    let pixels := (List.range camera_count).foldl
      (sheetFoldStep temp_files img0 sheet_width sheet_height
        actual_img_width actual_img_height spacing cols) pixels0
    some ⟨sheet_width, sheet_height, pixels⟩

/-! ### Pointwise behaviour of `setSlice4` -/

lemma length_setSlice4 (px : List ℚ) (dest : ℕ) (src : List ℚ) (s : ℕ) :
    (setSlice4 px dest src s).length = px.length := by
  simp [setSlice4]

lemma getD_setSlice4_miss (px : List ℚ) (dest : ℕ) (src : List ℚ) (s : ℕ)
    {q : ℕ} (hq : ∀ c < 4, q ≠ dest + c) :
    (setSlice4 px dest src s).getD q 0 = px.getD q 0 := by
  have h0 : q ≠ dest := by have := hq 0 (by omega); omega
  have h1 : q ≠ dest + 1 := hq 1 (by omega)
  have h2 : q ≠ dest + 2 := hq 2 (by omega)
  have h3 : q ≠ dest + 3 := hq 3 (by omega)
  unfold setSlice4
  rw [List.getD_eq_getD_get?,
    List.get?_set_ne _ _ (fun h => h3 h.symm),
    List.get?_set_ne _ _ (fun h => h2 h.symm),
    List.get?_set_ne _ _ (fun h => h1 h.symm),
    List.get?_set_ne _ _ (fun h => h0 h.symm)]
  exact (List.getD_eq_getD_get? px 0 q).symm

lemma getD_setSlice4_hit (px : List ℚ) (dest : ℕ) (src : List ℚ) (s : ℕ)
    {c : ℕ} (hc : c < 4) (hd : dest + 3 < px.length) :
    (setSlice4 px dest src s).getD (dest + c) 0 = src.getD (s + c) 0 := by
  unfold setSlice4
  interval_cases c
  · rw [List.getD_eq_getD_get?,
      List.get?_set_ne _ _ (by omega : dest + 3 ≠ dest + 0),
      List.get?_set_ne _ _ (by omega : dest + 2 ≠ dest + 0),
      List.get?_set_ne _ _ (by omega : dest + 1 ≠ dest + 0)]
    have h0 : dest + 0 = dest := rfl
    rw [h0, List.get?_set_eq_of_lt _ (by omega : dest < px.length)]
    simp
  · rw [List.getD_eq_getD_get?,
      List.get?_set_ne _ _ (by omega : dest + 3 ≠ dest + 1),
      List.get?_set_ne _ _ (by omega : dest + 2 ≠ dest + 1),
      List.get?_set_eq_of_lt _
        (by simp only [List.length_set]; omega :
          dest + 1 < (px.set dest (src.getD s 0)).length)]
    simp
  · rw [List.getD_eq_getD_get?,
      List.get?_set_ne _ _ (by omega : dest + 3 ≠ dest + 2),
      List.get?_set_eq_of_lt _
        (by simp only [List.length_set]; omega :
          dest + 2 <
            ((px.set dest (src.getD s 0)).set (dest + 1)
              (src.getD (s + 1) 0)).length)]
    simp
  · rw [List.getD_eq_getD_get?,
      List.get?_set_eq_of_lt _
        (by simp only [List.length_set]; omega :
          dest + 3 <
            (((px.set dest (src.getD s 0)).set (dest + 1)
              (src.getD (s + 1) 0)).set (dest + 2)
              (src.getD (s + 2) 0)).length)]
    simp

/-! ### Behaviour of the inner (per-row) copy loop -/

section BlitLemmas

variable (SW SH sx sy : ℕ) (img : PyImage)

lemma blitInnerStep_length (y : ℕ) (px : List ℚ) (x : ℕ) :
    (blitInnerStep SW SH sx sy img y px x).length = px.length := by
  simp only [blitInnerStep]
  split
  · exact length_setSlice4 _ _ _ _
  · rfl

lemma innerFold_length (y w : ℕ) (px : List ℚ) :
    ((List.range w).foldl (blitInnerStep SW SH sx sy img y) px).length =
      px.length := by
  induction w with
  | zero => rfl
  | succ w ih =>
    rw [List.range_succ, List.foldl_append, List.foldl_cons, List.foldl_nil,
      blitInnerStep_length]
    exact ih

lemma innerFold_miss (y w q : ℕ) (px : List ℚ)
    (hq : q < ((SH - 1 - (sy + y)) * SW + sx) * 4 ∨
      ((SH - 1 - (sy + y)) * SW + sx) * 4 + 4 * w ≤ q) :
    ((List.range w).foldl (blitInnerStep SW SH sx sy img y) px).getD q 0 =
      px.getD q 0 := by
  induction w with
  | zero => rfl
  | succ w ih =>
    rw [List.range_succ, List.foldl_append, List.foldl_cons, List.foldl_nil]
    simp only [blitInnerStep]
    have hdest : ((SH - 1 - (sy + y)) * SW + (sx + w)) * 4 =
        ((SH - 1 - (sy + y)) * SW + sx) * 4 + 4 * w := by ring
    split
    · rw [getD_setSlice4_miss]
      · exact ih (by omega)
      · intro c' hc'
        omega
    · exact ih (by omega)

lemma innerFold_hit (y w x0 c : ℕ) (px : List ℚ)
    (hx0 : x0 < w) (hw : w ≤ img.width) (hc : c < 4)
    (hylt : y < img.height)
    (hwf : img.pixels.length = 4 * (img.width * img.height))
    (hgx : sx + img.width ≤ SW) (hgy : sy + img.height ≤ SH)
    (hpx : px.length = SW * SH * 4) :
    ((List.range w).foldl (blitInnerStep SW SH sx sy img y) px).getD
        (((SH - 1 - (sy + y)) * SW + sx) * 4 + 4 * x0 + c) 0 =
      img.pixels.getD (((img.height - 1 - y) * img.width + x0) * 4 + c) 0 := by
  induction w with
  | zero => omega
  | succ w ih =>
    rw [List.range_succ, List.foldl_append, List.foldl_cons, List.foldl_nil]
    simp only [blitInnerStep]
    have hdest : ((SH - 1 - (sy + y)) * SW + (sx + w)) * 4 =
        ((SH - 1 - (sy + y)) * SW + sx) * 4 + 4 * w := by ring
    rcases Nat.lt_or_ge x0 w with hlt | hge
    · split
      · rw [getD_setSlice4_miss]
        · exact ih hlt (by omega)
        · intro c' hc'
          omega
      · exact ih hlt (by omega)
    · have hx0w : x0 = w := by omega
      subst hx0w
      have hsrc : ((img.height - 1 - y) * img.width + x0) * 4 <
          img.pixels.length := by
        rw [hwf]
        have hyy : img.height - 1 - y ≤ img.height - 1 := by omega
        have hmul := Nat.mul_le_mul_right img.width hyy
        have h1 : (img.height - 1 - y) * img.width + x0 <
            img.width * img.height := by
          have he : (img.height - 1) * img.width + img.width =
              img.width * img.height := by
            have hh1 : img.height - 1 + 1 = img.height := by omega
            calc (img.height - 1) * img.width + img.width
                = (img.height - 1 + 1) * img.width := by ring
              _ = img.height * img.width := by rw [hh1]
              _ = img.width * img.height := Nat.mul_comm _ _
          omega
        omega
      have hlen := innerFold_length SW SH sx sy img y x0 px
      have hSH1 : 1 ≤ SH := by omega
      have hdy : SH - 1 - (sy + y) ≤ SH - 1 := by omega
      have hmul2 := Nat.mul_le_mul_right SW hdy
      have h2 : (SH - 1 - (sy + y)) * SW + (sx + x0) < SW * SH := by
        have he : (SH - 1) * SW + SW = SW * SH := by
          have hh1 : SH - 1 + 1 = SH := by omega
          calc (SH - 1) * SW + SW = (SH - 1 + 1) * SW := by ring
            _ = SH * SW := by rw [hh1]
            _ = SW * SH := Nat.mul_comm _ _
        omega
      have hdest3 : ((SH - 1 - (sy + y)) * SW + (sx + x0)) * 4 + 3 <
          ((List.range x0).foldl (blitInnerStep SW SH sx sy img y) px).length := by
        rw [hlen, hpx]
        omega
      split
      · have harr : ((SH - 1 - (sy + y)) * SW + sx) * 4 + 4 * x0 + c =
            ((SH - 1 - (sy + y)) * SW + (sx + x0)) * 4 + c := by ring
        rw [harr, getD_setSlice4_hit _ _ _ _ hc hdest3]
      · rename_i hguard
        exact absurd ⟨hsrc, by omega⟩ hguard

/-! ### Behaviour of the row loop -/

lemma rowsFold_length (m : ℕ) (px : List ℚ) :
    ((List.range m).foldl (blitRow SW SH sx sy img) px).length =
      px.length := by
  induction m with
  | zero => rfl
  | succ m ih =>
    rw [List.range_succ, List.foldl_append, List.foldl_cons, List.foldl_nil]
    unfold blitRow
    rw [innerFold_length]
    exact ih

lemma rowsFold_miss (m q : ℕ) (px : List ℚ)
    (hq : ∀ y < m, q < ((SH - 1 - (sy + y)) * SW + sx) * 4 ∨
      ((SH - 1 - (sy + y)) * SW + sx) * 4 + 4 * img.width ≤ q) :
    ((List.range m).foldl (blitRow SW SH sx sy img) px).getD q 0 =
      px.getD q 0 := by
  induction m with
  | zero => rfl
  | succ m ih =>
    rw [List.range_succ, List.foldl_append, List.foldl_cons, List.foldl_nil]
    unfold blitRow
    rw [innerFold_miss SW SH sx sy img m img.width q _
      (hq m (Nat.lt_succ_self m))]
    exact ih (fun y hy => hq y (Nat.lt_succ_of_lt hy))

lemma rowsFold_hit (m y0 x0 c : ℕ) (px : List ℚ)
    (hy0 : y0 < m) (hm : m ≤ img.height) (hx0 : x0 < img.width) (hc : c < 4)
    (hwf : img.pixels.length = 4 * (img.width * img.height))
    (hgx : sx + img.width ≤ SW) (hgy : sy + img.height ≤ SH)
    (hpx : px.length = SW * SH * 4) :
    ((List.range m).foldl (blitRow SW SH sx sy img) px).getD
        (((SH - 1 - (sy + y0)) * SW + sx) * 4 + 4 * x0 + c) 0 =
      img.pixels.getD (((img.height - 1 - y0) * img.width + x0) * 4 + c) 0 := by
  induction m with
  | zero => omega
  | succ m ih =>
    rw [List.range_succ, List.foldl_append, List.foldl_cons, List.foldl_nil]
    unfold blitRow
    rcases Nat.lt_or_ge y0 m with hlt | hge
    · -- row m writes strictly below the target row in the buffer
      have hsy : sy + m ≤ SH - 1 := by omega
      have hdm : (SH - 1 - (sy + m)) + 1 ≤ SH - 1 - (sy + y0) := by omega
      have hprod : (SH - 1 - (sy + m)) * SW + SW ≤
          (SH - 1 - (sy + y0)) * SW := by
        calc (SH - 1 - (sy + m)) * SW + SW
            = ((SH - 1 - (sy + m)) + 1) * SW := by ring
          _ ≤ (SH - 1 - (sy + y0)) * SW := Nat.mul_le_mul_right SW hdm
      rw [innerFold_miss SW SH sx sy img m img.width _ _ (by omega)]
      exact ih hlt (by omega)
    · have hy0m : y0 = m := by omega
      subst hy0m
      have hpxm : ((List.range y0).foldl (blitRow SW SH sx sy img) px).length =
          SW * SH * 4 := by
        rw [rowsFold_length]
        exact hpx
      exact innerFold_hit SW SH sx sy img y0 img.width x0 c _ hx0 le_rfl hc
        (by omega) hwf hgx hgy hpxm

end BlitLemmas

/-! ### Disjointness of grid cells -/

/-- Two rectangular cells that are separated horizontally or vertically
write to disjoint index ranges of the sheet buffer: an index inside a row
block of cell 1 is outside every row block of cell 2. -/
lemma cell_separated {SW SH W H : ℕ} {sx1 sy1 sx2 sy2 y1 y2 x c : ℕ}
    (h1x : sx1 + W ≤ SW) (h2x : sx2 + W ≤ SW)
    (h1y : sy1 + H ≤ SH) (h2y : sy2 + H ≤ SH)
    (hy1 : y1 < H) (hy2 : y2 < H) (hx : x < W) (hc : c < 4)
    (hsep : sx1 + W ≤ sx2 ∨ sx2 + W ≤ sx1 ∨
      sy1 + H ≤ sy2 ∨ sy2 + H ≤ sy1) :
    ((SH - 1 - (sy1 + y1)) * SW + sx1) * 4 + 4 * x + c <
        ((SH - 1 - (sy2 + y2)) * SW + sx2) * 4 ∨
      ((SH - 1 - (sy2 + y2)) * SW + sx2) * 4 + 4 * W ≤
        ((SH - 1 - (sy1 + y1)) * SW + sx1) * 4 + 4 * x + c := by
  rcases Nat.lt_trichotomy (SH - 1 - (sy1 + y1)) (SH - 1 - (sy2 + y2))
    with hlt | heq | hgt
  · have hprod : (SH - 1 - (sy1 + y1)) * SW + SW ≤
        (SH - 1 - (sy2 + y2)) * SW := by
      calc (SH - 1 - (sy1 + y1)) * SW + SW
          = ((SH - 1 - (sy1 + y1)) + 1) * SW := by ring
        _ ≤ (SH - 1 - (sy2 + y2)) * SW :=
          Nat.mul_le_mul_right SW (Nat.succ_le_of_lt hlt)
    left; omega
  · have hprod : (SH - 1 - (sy1 + y1)) * SW = (SH - 1 - (sy2 + y2)) * SW := by
      rw [heq]
    omega
  · have hprod : (SH - 1 - (sy2 + y2)) * SW + SW ≤
        (SH - 1 - (sy1 + y1)) * SW := by
      calc (SH - 1 - (sy2 + y2)) * SW + SW
          = ((SH - 1 - (sy2 + y2)) + 1) * SW := by ring
        _ ≤ (SH - 1 - (sy1 + y1)) * SW :=
          Nat.mul_le_mul_right SW (Nat.succ_le_of_lt hgt)
    right; omega

/-- Distinct frame indices occupy grid cells that are separated
horizontally or vertically. -/
lemma grid_cells_separated {cols rows W H s : ℕ} {i j : ℕ}
    (hcols : 1 ≤ cols) (hi : i < cols * rows) (hj : j < cols * rows)
    (hij : i ≠ j) :
    (i % cols) * (W + s) + W ≤ (j % cols) * (W + s) ∨
    (j % cols) * (W + s) + W ≤ (i % cols) * (W + s) ∨
    (i / cols) * (H + s) + H ≤ (j / cols) * (H + s) ∨
    (j / cols) * (H + s) + H ≤ (i / cols) * (H + s) := by
  have hdmi := Nat.div_add_mod i cols
  have hdmj := Nat.div_add_mod j cols
  rcases Nat.lt_trichotomy (i % cols) (j % cols) with h | h | h
  · left
    calc (i % cols) * (W + s) + W ≤ ((i % cols) + 1) * (W + s) := by ring_nf; omega
      _ ≤ (j % cols) * (W + s) :=
        Nat.mul_le_mul_right (W + s) (Nat.succ_le_of_lt h)
  · rcases Nat.lt_trichotomy (i / cols) (j / cols) with h2 | h2 | h2
    · right; right; left
      calc (i / cols) * (H + s) + H ≤ ((i / cols) + 1) * (H + s) := by
            ring_nf; omega
        _ ≤ (j / cols) * (H + s) :=
          Nat.mul_le_mul_right (H + s) (Nat.succ_le_of_lt h2)
    · exfalso
      have hp : (i / cols) * cols = (j / cols) * cols := by rw [h2]
      have hpi : cols * (i / cols) = (i / cols) * cols := Nat.mul_comm _ _
      have hpj : cols * (j / cols) = (j / cols) * cols := Nat.mul_comm _ _
      omega
    · right; right; right
      calc (j / cols) * (H + s) + H ≤ ((j / cols) + 1) * (H + s) := by
            ring_nf; omega
        _ ≤ (i / cols) * (H + s) :=
          Nat.mul_le_mul_right (H + s) (Nat.succ_le_of_lt h2)
  · right; left
    calc (j % cols) * (W + s) + W ≤ ((j % cols) + 1) * (W + s) := by
          ring_nf; omega
      _ ≤ (i % cols) * (W + s) :=
        Nat.mul_le_mul_right (W + s) (Nat.succ_le_of_lt h)

/-- The column and row of grid cell `i` fit inside the sheet. -/
lemma cell_geometry {cols rows W H s SW SH : ℕ} (hcols : 1 ≤ cols)
    (hSW : SW = cols * W + (cols - 1) * s)
    (hSH : SH = rows * H + (rows - 1) * s)
    {i : ℕ} (hi : i < cols * rows) :
    (i % cols) * (W + s) + W ≤ SW ∧ (i / cols) * (H + s) + H ≤ SH := by
  have hm : i % cols < cols := Nat.mod_lt _ hcols
  have hd : i / cols < rows := by
    rw [Nat.div_lt_iff_lt_mul hcols]
    calc i < cols * rows := hi
      _ = rows * cols := Nat.mul_comm _ _
  constructor
  · have h1 : i % cols ≤ cols - 1 := by omega
    have h2 := Nat.mul_le_mul_right (W + s) h1
    have hc1 : cols - 1 + 1 = cols := by omega
    have h3 : (cols - 1) * (W + s) + W = SW := by
      rw [hSW]
      calc (cols - 1) * (W + s) + W = ((cols - 1) + 1) * W + (cols - 1) * s := by
            ring
        _ = cols * W + (cols - 1) * s := by rw [hc1]
    omega
  · have hrows : 1 ≤ rows := lt_of_le_of_lt (Nat.zero_le _) hd
    have h1 : i / cols ≤ rows - 1 := by omega
    have h2 := Nat.mul_le_mul_right (H + s) h1
    have hr1 : rows - 1 + 1 = rows := by omega
    have h3 : (rows - 1) * (H + s) + H = SH := by
      rw [hSH]
      calc (rows - 1) * (H + s) + H = ((rows - 1) + 1) * H + (rows - 1) * s := by
            ring
        _ = rows * H + (rows - 1) * s := by rw [hr1]
    omega

/-! ### Behaviour of the camera loop over all frames -/

section SheetLemmas

variable (temp_files : List PyImage) (img0 : PyImage)
variable (n s W H cols rows SW SH : ℕ)

lemma temp_dims
    (hdims : ∀ f ∈ temp_files, f.width = W ∧ f.height = H ∧
      f.pixels.length = 4 * (W * H))
    (i : ℕ) (hi : i < temp_files.length) :
    (temp_files.getD i img0).width = W ∧
    (temp_files.getD i img0).height = H ∧
    (temp_files.getD i img0).pixels.length = 4 * (W * H) := by
  have hmem : temp_files.getD i img0 ∈ temp_files := by
    rw [List.getD_eq_getElem _ _ hi]
    exact List.getElem_mem _
  exact hdims _ hmem

lemma blitImage_length (aW aH sp cls : ℕ) (img : PyImage) (i : ℕ)
    (px : List ℚ) :
    (blitImage SW SH aW aH sp cls img i px).length = px.length := by
  simp only [blitImage]
  exact rowsFold_length SW SH _ _ img img.height px

lemma blitImage_hit (img : PyImage) (i y0 x0 c : ℕ) (px : List ℚ)
    (hcols : 1 ≤ cols)
    (hSW : SW = cols * W + (cols - 1) * s)
    (hSH : SH = rows * H + (rows - 1) * s)
    (himgW : img.width = W) (himgH : img.height = H)
    (himgP : img.pixels.length = 4 * (W * H))
    (hi : i < cols * rows)
    (hy0 : y0 < H) (hx0 : x0 < W) (hc : c < 4)
    (hpx : px.length = SW * SH * 4) :
    (blitImage SW SH W H s cols img i px).getD
        (((SH - 1 - ((i / cols) * (H + s) + y0)) * SW +
          (i % cols) * (W + s)) * 4 + 4 * x0 + c) 0 =
      img.pixels.getD (((H - 1 - y0) * W + x0) * 4 + c) 0 := by
  obtain ⟨hgx, hgy⟩ := cell_geometry hcols hSW hSH hi
  simp only [blitImage]
  have h := rowsFold_hit SW SH ((i % cols) * (W + s)) ((i / cols) * (H + s))
    img img.height y0 x0 c px (by rw [himgH]; exact hy0) le_rfl
    (by rw [himgW]; exact hx0) hc (by rw [himgW, himgH]; exact himgP)
    (by rw [himgW]; exact hgx) (by rw [himgH]; exact hgy) hpx
  rw [himgW, himgH] at h
  rw [himgH]
  exact h

lemma blitImage_miss_other (img : PyImage) (j q : ℕ) (px : List ℚ)
    (himgW : img.width = W) (himgH : img.height = H)
    (hq : ∀ y2 < H,
      q < ((SH - 1 - ((j / cols) * (H + s) + y2)) * SW +
          (j % cols) * (W + s)) * 4 ∨
      ((SH - 1 - ((j / cols) * (H + s) + y2)) * SW +
          (j % cols) * (W + s)) * 4 + 4 * W ≤ q) :
    (blitImage SW SH W H s cols img j px).getD q 0 = px.getD q 0 := by
  simp only [blitImage]
  apply rowsFold_miss
  intro y hy
  rw [himgH] at hy
  rw [himgW]
  exact hq y hy

lemma sheetFold_length (m : ℕ) (px : List ℚ) :
    ((List.range m).foldl
      (sheetFoldStep temp_files img0 SW SH W H s cols) px).length =
      px.length := by
  induction m with
  | zero => rfl
  | succ m ih =>
    rw [List.range_succ, List.foldl_append, List.foldl_cons, List.foldl_nil]
    simp only [sheetFoldStep]
    split
    · rw [blitImage_length SW SH]
      exact ih
    · exact ih

lemma sheetFold_hit (m i0 y0 x0 c : ℕ) (px : List ℚ)
    (hlen : temp_files.length = n)
    (hdims : ∀ f ∈ temp_files, f.width = W ∧ f.height = H ∧
      f.pixels.length = 4 * (W * H))
    (hcols : 1 ≤ cols) (hcap : n ≤ cols * rows)
    (hSW : SW = cols * W + (cols - 1) * s)
    (hSH : SH = rows * H + (rows - 1) * s)
    (hi0 : i0 < m) (hm : m ≤ n) (hy0 : y0 < H) (hx0 : x0 < W) (hc : c < 4)
    (hpx : px.length = SW * SH * 4) :
    ((List.range m).foldl
      (sheetFoldStep temp_files img0 SW SH W H s cols) px).getD
        (((SH - 1 - ((i0 / cols) * (H + s) + y0)) * SW +
          (i0 % cols) * (W + s)) * 4 + 4 * x0 + c) 0 =
      (temp_files.getD i0 img0).pixels.getD
        (((H - 1 - y0) * W + x0) * 4 + c) 0 := by
  induction m with
  | zero => omega
  | succ m ih =>
    rw [List.range_succ, List.foldl_append, List.foldl_cons, List.foldl_nil]
    simp only [sheetFoldStep]
    have hguard : m < temp_files.length := by omega
    rw [if_pos hguard]
    obtain ⟨hmW, hmH, hmP⟩ := temp_dims temp_files img0 W H hdims m hguard
    rcases Nat.lt_or_ge i0 m with hlt | hge
    · have hmiss := blitImage_miss_other s W H cols SW SH
        (temp_files.getD m img0) m
        (((SH - 1 - ((i0 / cols) * (H + s) + y0)) * SW +
          (i0 % cols) * (W + s)) * 4 + 4 * x0 + c)
        ((List.range m).foldl
          (sheetFoldStep temp_files img0 SW SH W H s cols) px)
        hmW hmH
        (fun y2 hy2 => by
          obtain ⟨h1x, h1y⟩ := cell_geometry hcols hSW hSH
            (show i0 < cols * rows by omega)
          obtain ⟨h2x, h2y⟩ := cell_geometry hcols hSW hSH
            (show m < cols * rows by omega)
          exact cell_separated h1x h2x h1y h2y hy0 hy2 hx0 hc
            (@grid_cells_separated cols rows W H s i0 m hcols (by omega)
              (by omega) (by omega)))
      rw [hmiss]
      exact ih hlt (by omega)
    · have hi0m : i0 = m := by omega
      subst hi0m
      have hpxm : ((List.range i0).foldl
          (sheetFoldStep temp_files img0 SW SH W H s cols) px).length =
          SW * SH * 4 := by
        rw [sheetFold_length temp_files img0 s W H cols SW SH]
        exact hpx
      exact blitImage_hit s W H cols rows SW SH _ i0 y0 x0 c _ hcols hSW hSH
        hmW hmH hmP (by omega) hy0 hx0 hc hpxm

end SheetLemmas

/-- An index of the sheet buffer covered by some frame's blit: inside the
row block of source row `y` of grid cell `i` for some frame `i < n`. -/
def C1Covered (n s W H cols SW SH : ℕ) (q : ℕ) : Prop :=
  ∃ i, i < n ∧ ∃ y, y < H ∧ ∃ t, t < 4 * W ∧
    q = ((SH - 1 - ((i / cols) * (H + s) + y)) * SW +
      (i % cols) * (W + s)) * 4 + t

lemma sheetFold_zero (temp_files : List PyImage) (img0 : PyImage)
    (n s W H cols rows SW SH m q : ℕ) (px : List ℚ)
    (hlen : temp_files.length = n)
    (hdims : ∀ f ∈ temp_files, f.width = W ∧ f.height = H ∧
      f.pixels.length = 4 * (W * H))
    (hm : m ≤ n)
    (hq : ¬ C1Covered n s W H cols SW SH q) :
    ((List.range m).foldl
      (sheetFoldStep temp_files img0 SW SH W H s cols) px).getD q 0 =
      px.getD q 0 := by
  induction m with
  | zero => rfl
  | succ m ih =>
    rw [List.range_succ, List.foldl_append, List.foldl_cons, List.foldl_nil]
    simp only [sheetFoldStep]
    have hguard : m < temp_files.length := by omega
    rw [if_pos hguard]
    obtain ⟨hmW, hmH, hmP⟩ := temp_dims temp_files img0 W H hdims m hguard
    have hmiss := blitImage_miss_other s W H cols SW SH
      (temp_files.getD m img0) m q
      ((List.range m).foldl
        (sheetFoldStep temp_files img0 SW SH W H s cols) px)
      hmW hmH
      (fun y2 hy2 => by
        by_contra hcon
        push_neg at hcon
        obtain ⟨hle, hlt2⟩ := hcon
        exact hq ⟨m, by omega, y2, hy2,
          q - ((SH - 1 - ((m / cols) * (H + s) + y2)) * SW +
            (m % cols) * (W + s)) * 4, by omega, by omega⟩)
    rw [hmiss]
    exact ih (by omega)

lemma getD_replicate_zero (k q : ℕ) :
    (List.replicate k (0 : ℚ)).getD q 0 = 0 := by
  rcases Nat.lt_or_ge q k with h | h
  · rw [List.getD_eq_getElem _ _ (by simpa using h)]
    simp
  · rw [List.getD_eq_default _ _ (by simpa using h)]

/-! ## Claim C1 -/

/-- The conclusion of claim C1: for `camera_count = n` equally-sized `W x H`
frames, `create_sprite_sheet_from_temp_files` produces a sheet of exactly
`cols*W + (cols-1)*s` by `rows*H + (rows-1)*s` pixels with
`cols = ceil(sqrt(n))` and `rows = ceil(n/cols)`; frame `i` occupies grid
cell `(i mod cols, i div cols)` with a Y flip on both source and
destination rows, so buffer row `v` of frame `i` is copied unchanged to
buffer row `SH - (row*(H+s) + H) + v` of the sheet (grid row 0 occupies
the topmost buffer rows, hence the top of the saved sheet) at column
offset `col*(W+s)`; and every index not covered by a frame is 0
(transparent), which in particular makes the `s`-pixel separators
transparent. -/
def C1Spec (n s W H : ℕ) (temp_files : List PyImage) : Prop :=
  let cols := pyCeilSqrt n
  let rows := pyCeilDiv n cols
  let SW := cols * W + (cols - 1) * s
  let SH := rows * H + (rows - 1) * s
  ∃ sheet : SpriteSheet,
    create_sprite_sheet_from_temp_files n s temp_files = some sheet ∧
    sheet.width = SW ∧
    sheet.height = SH ∧
    sheet.pixels.length = SW * SH * 4 ∧
    (∀ i, i < n → ∀ v, v < H → ∀ x, x < W → ∀ c, c < 4 →
      sheet.pixels.getD
        (((SH - ((i / cols) * (H + s) + H) + v) * SW +
          ((i % cols) * (W + s) + x)) * 4 + c) 0 =
        (temp_files.getD i ⟨0, 0, []⟩).pixels.getD ((v * W + x) * 4 + c) 0) ∧
    (∀ q, q < SW * SH * 4 → ¬ C1Covered n s W H cols SW SH q →
      sheet.pixels.getD q 0 = 0)

/-- C1: for every `camera_count n ≥ 1`, spacing `s ≥ 0` and a full set of
equally-sized `W x H` RGBA frames, `create_sprite_sheet_from_temp_files`
composites them into a single sheet of exactly `cols*W + (cols-1)*s` by
`rows*H + (rows-1)*s` pixels with `cols = ceil(sqrt(n))` and
`rows = ceil(n/cols)`; frame `i` is blitted into grid cell
`(i mod cols, i div cols)` with a Y-coordinate flip applied to both source
and destination rows (each frame's content is copied unchanged as a
contiguous translated block and grid row 0 lands at the top of the saved
sheet), frames are separated by `s` transparent pixels, and every pixel
not covered by a frame is left at 0 (transparent). -/
theorem C1_sprite_sheet_composites (n s W H : ℕ) (temp_files : List PyImage)
    (hn : 1 ≤ n) (hW : 1 ≤ W) (hH : 1 ≤ H)
    (hlen : temp_files.length = n)
    (hdims : ∀ f ∈ temp_files, f.width = W ∧ f.height = H ∧
      f.pixels.length = 4 * (W * H)) :
    C1Spec n s W H temp_files := by
  have hne : temp_files ≠ [] := by
    intro h
    rw [h] at hlen
    simp at hlen
    omega
  obtain ⟨img0, rest, rfl⟩ := List.exists_cons_of_ne_nil hne
  obtain ⟨h0W, h0H, h0P⟩ := hdims img0 (List.mem_cons_self _ _)
  simp only [C1Spec, create_sprite_sheet_from_temp_files]
  rw [h0W, h0H]
  set cols := pyCeilSqrt n with hcols_def
  set rows := pyCeilDiv n cols with hrows_def
  set SW := cols * W + (cols - 1) * s with hSW_def
  set SH := rows * H + (rows - 1) * s with hSH_def
  have hcols1 : 1 ≤ cols := pyCeilSqrt_pos hn
  have hcap : n ≤ cols * rows := le_mul_pyCeilDiv n hcols1
  refine ⟨_, rfl, rfl, rfl, ?_, ?_, ?_⟩
  · rw [sheetFold_length (img0 :: rest) img0 s W H cols SW SH n
      (List.replicate (SW * SH * 4) 0)]
    simp
  · intro i hi v hv x hx c hc
    obtain ⟨hgx, hgy⟩ := cell_geometry hcols1 hSW_def hSH_def
      (lt_of_lt_of_le hi hcap)
    have hy0 : H - 1 - v < H := by omega
    have hhit := sheetFold_hit (img0 :: rest) img0 n s W H cols rows SW SH
      n i (H - 1 - v) x c (List.replicate (SW * SH * 4) 0) hlen hdims hcols1
      hcap hSW_def hSH_def hi le_rfl hy0 hx hc (by simp)
    have hrow : SH - 1 - ((i / cols) * (H + s) + (H - 1 - v)) =
        SH - ((i / cols) * (H + s) + H) + v := by omega
    have hidx : ((SH - ((i / cols) * (H + s) + H) + v) * SW +
          ((i % cols) * (W + s) + x)) * 4 + c =
        ((SH - 1 - ((i / cols) * (H + s) + (H - 1 - v))) * SW +
          (i % cols) * (W + s)) * 4 + 4 * x + c := by
      rw [hrow]; ring
    rw [hidx]
    have hv' : H - 1 - (H - 1 - v) = v := by omega
    rw [hv'] at hhit
    have hilen : i < (img0 :: rest).length := by rw [hlen]; exact hi
    have hdef : (img0 :: rest).getD i (⟨0, 0, []⟩ : PyImage) =
        (img0 :: rest).getD i img0 := by
      rw [List.getD_eq_getElem _ _ hilen, List.getD_eq_getElem _ _ hilen]
    rw [hdef]
    exact hhit
  · intro q hqlt hnc
    rw [sheetFold_zero (img0 :: rest) img0 n s W H cols rows SW SH n q
      (List.replicate (SW * SH * 4) 0) hlen hdims le_rfl hnc]
    exact getD_replicate_zero _ _

/-- Witness for C1 at a concrete input: two 1x1 frames with spacing 1. -/
theorem C1_witness :
    C1Spec 2 1 1 1 [⟨1, 1, [1, 2, 3, 4]⟩, ⟨1, 1, [5, 6, 7, 8]⟩] :=
  C1_sprite_sheet_composites 2 1 1 1 _ (by norm_num) (by norm_num)
    (by norm_num) rfl
    (by
      intro f hf
      simp only [List.mem_cons, List.mem_singleton] at hf
      rcases hf with rfl | hf
      · exact ⟨rfl, rfl, rfl⟩
      · rcases hf with rfl | hf
        · exact ⟨rfl, rfl, rfl⟩
        · cases hf)

end Mcsr
